import Mathlib

/-! Intelligent age calculator: calendar core.

A shallow embedding of `src/main.cpp` (classes `Date` and `AgeCalculator`).

Conventions of the embedding.

* A C++ `int` is an `Int` reduced to the 32-bit two's-complement range by `wrap32` after every
  arithmetic operation; a `long long` is reduced by `wrap64`.  (Signed overflow is undefined
  behaviour in C++; wrapping is what the usual targets do.)  The fields of a `Date` that the
  program can hold satisfy `Date.inRange`.
* `/` and `%` of C++ truncate towards zero: `Int.tdiv` and `Int.tmod`.
* A read of a constant table outside its bounds is a fault: the lookup returns `none`, and the
  functions that read a table return an `Option`.
* `Date.toJDNChecked` is `Date::toJDN` evaluated exactly, returning `none` when a result does not
  fit its C++ type; it is used to state that a computation is free of overflow.
-/

namespace AgeCalc

/-! ## Machine integers -/

/-- Reduction of an integer to the range of a 32-bit `int`. -/
def wrap32 (x : Int) : Int := (x + 2147483648) % 4294967296 - 2147483648

/-- Reduction of an integer to the range of a 64-bit `long long`. -/
def wrap64 (x : Int) : Int :=
  (x + 9223372036854775808) % 18446744073709551616 - 9223372036854775808

/-- The value fits a 32-bit `int`. -/
def inInt32 (x : Int) : Prop := -2147483648 ≤ x ∧ x ≤ 2147483647

/-- The value fits a 64-bit `long long`. -/
def inInt64 (x : Int) : Prop := -9223372036854775808 ≤ x ∧ x ≤ 9223372036854775807

instance (x : Int) : Decidable (inInt32 x) := inferInstanceAs (Decidable (_ ∧ _))

instance (x : Int) : Decidable (inInt64 x) := inferInstanceAs (Decidable (_ ∧ _))

/-- Addition of two `int`s. -/
def add32 (a b : Int) : Int := wrap32 (a + b)

/-- Subtraction of two `int`s. -/
def sub32 (a b : Int) : Int := wrap32 (a - b)

/-- Multiplication of two `int`s. -/
def mul32 (a b : Int) : Int := wrap32 (a * b)

/-- Addition of two `long long`s. -/
def add64 (a b : Int) : Int := wrap64 (a + b)

/-- Subtraction of two `long long`s. -/
def sub64 (a b : Int) : Int := wrap64 (a - b)

/-- Multiplication of two `long long`s. -/
def mul64 (a b : Int) : Int := wrap64 (a * b)

/-! ## class Date -/

/-- The class `Date`: `int day, month, year`. -/
structure Date where
  day : Int
  month : Int
  year : Int
deriving DecidableEq

/-- The three fields are values of type `int`. -/
def Date.inRange (d : Date) : Prop := inInt32 d.day ∧ inInt32 d.month ∧ inInt32 d.year

instance (d : Date) : Decidable d.inRange := inferInstanceAs (Decidable (_ ∧ _ ∧ _))

/-- `Date::isLeapYear`: `(y % 4 == 0 && y % 100 != 0) || (y % 400 == 0)`. -/
def isLeapYear (y : Int) : Bool :=
  (Int.tmod y 4 == 0 && Int.tmod y 100 != 0) || (Int.tmod y 400 == 0)

/-- The table `dm[12]` of `Date::daysInMonth`. -/
def dm : List Int := [31, 28, 31, 30, 31, 30, 31, 31, 30, 31, 30, 31]

/-- A read `tbl[i]` of a constant table with an `int` index; `none` outside the table. -/
def tableAt (tbl : List Int) (i : Int) : Option Int :=
  if 0 ≤ i then tbl.get? i.toNat else none

/-- `Date::daysInMonth`: 29 for a leap February, else `dm[m - 1]`. -/
def daysInMonth (m y : Int) : Option Int :=
  if m = 2 ∧ isLeapYear y = true then some 29
  else tableAt dm (sub32 m 1)

/-- `Date::isValid`. -/
def Date.isValid (d : Date) : Option Bool :=
  if d.year < 1 ∨ d.month < 1 ∨ d.month > 12 ∨ d.day < 1 then some false
  else
    match daysInMonth d.month d.year with
    | none => none
    | some n => if d.day > n then some false else some true

/-- The table `t[12]` of `Date::dayOfWeek`. -/
def sakamoto : List Int := [0, 3, 2, 5, 0, 3, 5, 1, 4, 6, 2, 4]

/-- `Date::dayOfWeek` (Sakamoto): 0 = Sunday .. 6 = Saturday. -/
def Date.dayOfWeek (d : Date) : Option Int :=
  let m := d.month
  let y := sub32 d.year (if m < 3 then 1 else 0)
  match tableAt sakamoto (sub32 m 1) with
  | none => none
  | some tm =>
    let s := add32 (add32 (add32 (sub32 (add32 y (Int.tdiv y 4)) (Int.tdiv y 100))
                (Int.tdiv y 400)) tm) d.day
    let w := Int.tmod s 7
    some (if w < 0 then add32 w 7 else w)

/-- `Date::toJDN`: `int` intermediates `a`, `y`, `m`, `y/4`, `y/100`, `y/400`; the sum is a
`long long`. -/
def Date.toJDN (d : Date) : Int :=
  let a := Int.tdiv (sub32 14 d.month) 12
  let y := sub32 (add32 d.year 4800) a
  let m := sub32 (add32 d.month (mul32 12 a)) 3
  sub64
    (add64
      (sub64
        (add64
          (add64 (add64 d.day (Int.tdiv (add64 (mul64 153 m) 2) 5)) (mul64 365 y))
          (Int.tdiv y 4))
        (Int.tdiv y 100))
      (Int.tdiv y 400))
    32045

/-- `Date::toJDN` computed exactly, with every arithmetic result checked against the range of
its C++ type (`int` for `a`, `y`, `m` and the three quotients of `y`, `long long` for the
sum): `none` when one of them does not fit. -/
def Date.toJDNChecked (d : Date) : Option Int :=
  let t := 14 - d.month
  let a := Int.tdiv t 12
  let y0 := d.year + 4800
  let y := y0 - a
  let m0 := 12 * a
  let m1 := d.month + m0
  let m := m1 - 3
  let p := 153 * m
  let q := p + 2
  let s1 := d.day + Int.tdiv q 5
  let r := 365 * y
  let s2 := s1 + r
  let s3 := s2 + Int.tdiv y 4
  let s4 := s3 - Int.tdiv y 100
  let s5 := s4 + Int.tdiv y 400
  let jdn := s5 - 32045
  if (inInt32 t ∧ inInt32 a ∧ inInt32 y0 ∧ inInt32 y ∧ inInt32 m0 ∧ inInt32 m1 ∧ inInt32 m
      ∧ inInt32 (Int.tdiv y 4) ∧ inInt32 (Int.tdiv y 100) ∧ inInt32 (Int.tdiv y 400))
     ∧ (inInt64 p ∧ inInt64 q ∧ inInt64 (Int.tdiv q 5) ∧ inInt64 s1 ∧ inInt64 r ∧ inInt64 s2
      ∧ inInt64 s3 ∧ inInt64 s4 ∧ inInt64 s5 ∧ inInt64 jdn)
  then some jdn else none

/-- `Date::operator<=`. -/
def Date.le (a b : Date) : Bool :=
  if a.year ≠ b.year then decide (a.year < b.year)
  else if a.month ≠ b.month then decide (a.month < b.month)
  else decide (a.day ≤ b.day)

/-! ## struct Age, class AgeCalculator -/

/-- The struct `Age`. -/
structure Age where
  years : Int
  months : Int
  days : Int
  totalDays : Int
deriving DecidableEq

/-- The block `if (d < 0) { ... }` of `AgeCalculator::compute`: the new `(m, d)`. -/
def dayBorrow (today : Date) (m d : Int) : Option (Int × Int) :=
  if d < 0 then
    let pm := sub32 today.month 1
    let py := today.year
    let pmy : Int × Int := if pm = 0 then (12, sub32 py 1) else (pm, py)
    match daysInMonth pmy.1 pmy.2 with
    | none => none
    | some n => some (sub32 m 1, add32 d n)
  else some (m, d)

/-- The block `if (m < 0) { ... }` of `AgeCalculator::compute`: the new `(y, m)`. -/
def monthBorrow (y m : Int) : Int × Int :=
  if m < 0 then (sub32 y 1, add32 m 12) else (y, m)

/-- The total-days part of `AgeCalculator::compute`: the JDN difference, negative values
replaced by 0. -/
def totalDaysOf (dob today : Date) : Int :=
  let diff := sub64 today.toJDN dob.toJDN
  if diff < 0 then 0 else diff

/-- `AgeCalculator::compute`. -/
def compute (dob today : Date) : Option Age :=
  let y := sub32 today.year dob.year
  let m := sub32 today.month dob.month
  let d := sub32 today.day dob.day
  match dayBorrow today m d with
  | none => none
  | some (m1, d1) =>
    let ym := monthBorrow y m1
    if ym.1 < 0 then some ⟨0, 0, 0, totalDaysOf dob today⟩
    else some ⟨ym.1, ym.2, d1, totalDaysOf dob today⟩

/-- The table `names[7]` of `Date::dayName`. -/
def names : List String :=
  ["Sunday", "Monday", "Tuesday", "Wednesday", "Thursday", "Friday", "Saturday"]

/-- `Date::dayName`: `names[dayOfWeek()]`; `none` when the read is outside the table. -/
def Date.dayName (d : Date) : Option String :=
  match d.dayOfWeek with
  | none => none
  | some w => if 0 ≤ w then names.get? w.toNat else none

/-- The label returned by `classify` for `years <= 2`, as it stands in the source file. -/
def babyLabel : String := "Baby (0�2)"

/-- The label returned by `classify` for `years <= 12`. -/
def childLabel : String := "Child (3�12)"

/-- The label returned by `classify` for `years <= 19`. -/
def teenLabel : String := "Teen (13�19)"

/-- The label returned by `classify` for `years <= 59`. -/
def adultLabel : String := "Adult (20�59)"

/-- The label returned by `classify` otherwise. -/
def seniorLabel : String := "Senior (60+)"

/-- `AgeCalculator::classify`: the first matching bound wins. -/
def classify (years : Int) : String :=
  if years ≤ 2 then babyLabel
  else if years ≤ 12 then childLabel
  else if years ≤ 19 then teenLabel
  else if years ≤ 59 then adultLabel
  else seniorLabel

/-- The next calendar day, which the program itself never computes: `(day+1, month, year)` if
`day < daysInMonth(month, year)`, else `(1, month+1, year)` if `month < 12`, else
`(1, 1, year+1)`.  It is used to state how `toJDN` and `dayOfWeek` advance from one day to the
next. -/
def nextDay (d : Date) : Option Date :=
  match daysInMonth d.month d.year with
  | none => none
  | some n =>
    if d.day < n then some ⟨d.day + 1, d.month, d.year⟩
    else if d.month < 12 then some ⟨1, d.month + 1, d.year⟩
    else some ⟨1, 1, d.year + 1⟩

/-- The Julian Day Number as the specification writes it, with floor division over the
unbounded integers: `a = floor((14 - month)/12)`, `y = year + 4800 - a`,
`m = month + 12*a - 3`,
`jdn = day + floor((153*m + 2)/5) + 365*y + floor(y/4) - floor(y/100) + floor(y/400) - 32045`. -/
def specJDN (day month year : Int) : Int :=
  let a := Int.fdiv (14 - month) 12
  let y := year + 4800 - a
  let m := month + 12 * a - 3
  day + Int.fdiv (153 * m + 2) 5 + 365 * y + Int.fdiv y 4 - Int.fdiv y 100 + Int.fdiv y 400
    - 32045

/-! ## Closed forms used in the proofs

These are not functions of the program: each is proved equal to the embedded code on valid
dates before it is used. -/

/-- The Gregorian length of month `m` of year `y`, in closed form. -/
def monthLength (m y : Int) : Int :=
  if m = 2 then (if isLeapYear y = true then 29 else 28)
  else if m = 4 ∨ m = 6 ∨ m = 9 ∨ m = 11 then 30 else 31

/-- The previous month of a valid `today`, as the borrow step computes it, and its length. -/
def prevMonthLength (today : Date) : Int :=
  if today.month = 1 then 31 else monthLength (today.month - 1) today.year

/-- The result of `compute` on valid dates, with exact integer arithmetic. -/
def computeExact (dob today : Date) : Age :=
  let y := today.year - dob.year
  let m := today.month - dob.month
  let d := today.day - dob.day
  let md : Int × Int := if d < 0 then (m - 1, d + prevMonthLength today) else (m, d)
  let ym : Int × Int := if md.1 < 0 then (y - 1, md.1 + 12) else (y, md.1)
  if ym.1 < 0 then ⟨0, 0, 0, totalDaysOf dob today⟩
  else ⟨ym.1, ym.2, md.2, totalDaysOf dob today⟩

/-- The successor of a valid date, with the month length in closed form. -/
def nextDayExact (d : Date) : Date :=
  if d.day < monthLength d.month d.year then ⟨d.day + 1, d.month, d.year⟩
  else if d.month < 12 then ⟨1, d.month + 1, d.year⟩
  else ⟨1, 1, d.year + 1⟩

/-- The arithmetic of `dayOfWeek` once the table entry `tm` is read, as a function of the
shifted year `y`, the entry and the day. -/
def sakamotoSum (y tm day : Int) : Int :=
  let s := add32 (add32 (add32 (sub32 (add32 y (Int.tdiv y 4)) (Int.tdiv y 100))
              (Int.tdiv y 400)) tm) day
  let w := Int.tmod s 7
  if w < 0 then add32 w 7 else w

/-- The life stages from the earliest to the latest. -/
def stageOrder : List String := [babyLabel, childLabel, teenLabel, adultLabel, seniorLabel]

/-- The position of a label among the life stages. -/
def stageIndex (s : String) : Nat := stageOrder.indexOf s

/-- The number of leap corrections counted by the Julian Day Number formula up to the shifted
year `y`: `y/4 - y/100 + y/400` with floor division. -/
def leapCount (y : Int) : Int := y / 4 - y / 100 + y / 400

/-- The shifted year of the Julian Day Number formula: the year starts on 1 March. -/
def marchYear (month year : Int) : Int := year + 4800 - (14 - month) / 12

/-- The shifted month of the Julian Day Number formula: 0 = March .. 11 = February. -/
def marchMonth (month : Int) : Int := month + 12 * ((14 - month) / 12) - 3

/-- `a` comes strictly before `b` in the lexicographic order on `(year, month, day)`. -/
def Date.before (a b : Date) : Prop :=
  a.year < b.year ∨ (a.year = b.year ∧ (a.month < b.month
    ∨ (a.month = b.month ∧ a.day < b.day)))

/-! ## Arithmetic of the embedding -/

theorem wrap32_of_inInt32 {x : Int} (h : inInt32 x) : wrap32 x = x := by
  unfold inInt32 at h
  unfold wrap32
  omega

theorem wrap64_of_inInt64 {x : Int} (h : inInt64 x) : wrap64 x = x := by
  unfold inInt64 at h
  unfold wrap64
  omega

theorem tdiv_of_nonneg {a b : Int} (ha : 0 ≤ a) (hb : 0 ≤ b) : Int.tdiv a b = a / b :=
  Int.tdiv_eq_ediv ha hb

theorem tmod_of_nonneg {a b : Int} (ha : 0 ≤ a) (hb : 0 ≤ b) : Int.tmod a b = a % b :=
  Int.tmod_eq_emod ha hb

theorem tmod_eq_zero_iff (a b : Int) : Int.tmod a b = 0 ↔ b ∣ a :=
  ⟨Int.dvd_of_tmod_eq_zero, Int.tmod_eq_zero_of_dvd⟩

theorem isLeapYear_iff (y : Int) :
    isLeapYear y = true ↔ ((4 ∣ y ∧ ¬ 100 ∣ y) ∨ 400 ∣ y) := by
  simp [isLeapYear, tmod_eq_zero_iff]

theorem daysInMonth_eq {m : Int} (y : Int) (h1 : 1 ≤ m) (h12 : m ≤ 12) :
    daysInMonth m y = some (monthLength m y) := by
  interval_cases m <;> cases hl : isLeapYear y <;>
    simp [daysInMonth, monthLength, hl, tableAt, sub32, wrap32, dm]

theorem daysInMonth_none {m : Int} (y : Int) (h : m < 1 ∨ 12 < m) (hm : inInt32 m) :
    daysInMonth m y = none := by
  unfold inInt32 at hm
  have h2 : ¬ (m = 2 ∧ isLeapYear y = true) := by omega
  unfold daysInMonth
  rw [if_neg h2]
  unfold tableAt sub32 wrap32
  split_ifs with h0
  · have h3 : 12 ≤ ((m - 1 + 2147483648) % 4294967296 - 2147483648).toNat := by omega
    rw [List.get?_eq_none]
    simpa [dm] using h3
  · rfl

theorem monthLength_bounds (m y : Int) : 28 ≤ monthLength m y ∧ monthLength m y ≤ 31 := by
  unfold monthLength
  split_ifs <;> omega

/-- What `isValid` returning `true` means, field by field. -/
theorem isValid_true_iff (d : Date) :
    d.isValid = some true ↔
      1 ≤ d.year ∧ 1 ≤ d.month ∧ d.month ≤ 12 ∧ 1 ≤ d.day ∧ d.day ≤ monthLength d.month d.year := by
  unfold Date.isValid
  split_ifs with h
  · constructor
    · intro h0
      cases h0
    · intro h0
      omega
  · have h1 : 1 ≤ d.month := by omega
    have h2 : d.month ≤ 12 := by omega
    rw [daysInMonth_eq d.year h1 h2]
    simp only
    split_ifs with h3
    · constructor
      · intro h0
        cases h0
      · intro h0
        omega
    · constructor
      · intro _
        omega
      · intro _
        rfl

theorem isValid_total (d : Date) : d.isValid = some false ∨ d.isValid = some true := by
  unfold Date.isValid
  split_ifs with h
  · exact Or.inl rfl
  · rw [daysInMonth_eq d.year (by omega) (by omega)]
    simp only
    split_ifs
    · exact Or.inl rfl
    · exact Or.inr rfl

theorem isValid_false_iff (d : Date) :
    d.isValid = some false ↔
      (d.year < 1 ∨ d.month < 1 ∨ d.month > 12 ∨ d.day < 1
        ∨ ∃ n, daysInMonth d.month d.year = some n ∧ d.day > n) := by
  unfold Date.isValid
  split_ifs with h
  · constructor
    · intro _
      omega
    · intro _
      rfl
  · rw [daysInMonth_eq d.year (by omega) (by omega)]
    simp only
    split_ifs with h3
    · constructor
      · intro _
        exact Or.inr (Or.inr (Or.inr (Or.inr ⟨_, rfl, h3⟩)))
      · intro _
        rfl
    · constructor
      · intro h0
        cases h0
      · intro h0
        rcases h0 with h0 | h0 | h0 | h0 | ⟨n, hn, hgt⟩
        · omega
        · omega
        · omega
        · omega
        · cases hn
          omega

/-- The field bounds of a valid date. -/
theorem valid_bounds {d : Date} (v : d.isValid = some true) :
    1 ≤ d.year ∧ 1 ≤ d.month ∧ d.month ≤ 12 ∧ 1 ≤ d.day ∧ d.day ≤ 31 := by
  have h := (isValid_true_iff d).1 v
  have hb := monthLength_bounds d.month d.year
  omega

/-- On valid dates held in `int` fields the three naive differences of `compute` are exact. -/
theorem naive_diffs {dob today : Date} (hd : dob.inRange) (ht : today.inRange)
    (vd : dob.isValid = some true) (vt : today.isValid = some true) :
    sub32 today.year dob.year = today.year - dob.year
      ∧ sub32 today.month dob.month = today.month - dob.month
      ∧ sub32 today.day dob.day = today.day - dob.day := by
  have bd := valid_bounds vd
  have bt := valid_bounds vt
  unfold Date.inRange inInt32 at hd ht
  unfold sub32 wrap32
  omega

theorem dayBorrow_eq {today : Date} (vt : today.isValid = some true) (m d : Int)
    (hm : -11 ≤ m ∧ m ≤ 11) (hd : -30 ≤ d ∧ d ≤ 30) :
    dayBorrow today m d =
      some (if d < 0 then (m - 1, d + prevMonthLength today) else (m, d)) := by
  have bt := valid_bounds vt
  unfold dayBorrow
  split_ifs with h
  · have hpm : sub32 today.month 1 = today.month - 1 := by
      unfold sub32 wrap32
      omega
    simp only [hpm]
    have hb := monthLength_bounds (today.month - 1) today.year
    by_cases h1 : today.month = 1
    · have h0 : today.month - 1 = 0 := by omega
      rw [if_pos h0]
      simp only
      rw [daysInMonth_eq _ (by decide) (by decide)]
      simp only [prevMonthLength, if_pos h1]
      have : monthLength 12 (sub32 today.year 1) = 31 := by simp [monthLength]
      rw [this]
      simp only [sub32, add32, wrap32]
      congr 2 <;> omega
    · have h0 : ¬ today.month - 1 = 0 := by omega
      rw [if_neg h0]
      simp only
      rw [daysInMonth_eq _ (by omega) (by omega)]
      simp only [prevMonthLength, if_neg h1]
      simp only [sub32, add32, wrap32]
      congr 2 <;> omega
  · rfl

theorem monthBorrow_eq (y m : Int) (hy : -2147483647 ≤ y ∧ y ≤ 2147483647)
    (hm : -12 ≤ m ∧ m ≤ 11) :
    monthBorrow y m = if m < 0 then (y - 1, m + 12) else (y, m) := by
  unfold monthBorrow
  split_ifs with h
  · simp only [sub32, add32, wrap32]
    congr 1 <;> omega
  · rfl

theorem compute_eq {dob today : Date} (hd : dob.inRange) (ht : today.inRange)
    (vd : dob.isValid = some true) (vt : today.isValid = some true) :
    compute dob today = some (computeExact dob today) := by
  have bd := valid_bounds vd
  have bt := valid_bounds vt
  obtain ⟨e1, e2, e3⟩ := naive_diffs hd ht vd vt
  have hdr := hd
  have htr := ht
  unfold Date.inRange inInt32 at hdr htr
  unfold compute
  simp only [e1, e2, e3]
  rw [dayBorrow_eq vt _ _ (by omega) (by omega)]
  simp only
  rw [monthBorrow_eq _ _ (by omega) (by split_ifs <;> simp only <;> omega)]
  unfold computeExact
  simp only
  split_ifs <;> rfl

theorem specJDN_eq (day month year : Int) :
    specJDN day month year =
      day + (153 * (month + 12 * ((14 - month) / 12) - 3) + 2) / 5
        + 365 * (year + 4800 - (14 - month) / 12) + (year + 4800 - (14 - month) / 12) / 4
        - (year + 4800 - (14 - month) / 12) / 100 + (year + 4800 - (14 - month) / 12) / 400
        - 32045 := by
  unfold specJDN
  simp only [Int.fdiv_eq_ediv _ (show (0 : Int) ≤ 12 by decide),
    Int.fdiv_eq_ediv _ (show (0 : Int) ≤ 5 by decide),
    Int.fdiv_eq_ediv _ (show (0 : Int) ≤ 4 by decide),
    Int.fdiv_eq_ediv _ (show (0 : Int) ≤ 100 by decide),
    Int.fdiv_eq_ediv _ (show (0 : Int) ≤ 400 by decide)]

/-- The exact `int` values of `a`, `y`, `m` in `toJDN` when no 32-bit operation wraps. -/
theorem toJDN_locals {d : Date} (hm : 1 ≤ d.month ∧ d.month ≤ 12)
    (hy : -4799 ≤ d.year ∧ d.year ≤ 2147478847) :
    Int.tdiv (sub32 14 d.month) 12 = (14 - d.month) / 12
      ∧ sub32 (add32 d.year 4800) ((14 - d.month) / 12) = d.year + 4800 - (14 - d.month) / 12
      ∧ sub32 (add32 d.month (mul32 12 ((14 - d.month) / 12))) 3
          = d.month + 12 * ((14 - d.month) / 12) - 3 := by
  have h1 : sub32 14 d.month = 14 - d.month := by
    unfold sub32 wrap32
    omega
  refine ⟨?_, ?_, ?_⟩
  · rw [h1]
    exact tdiv_of_nonneg (by omega) (by decide)
  · unfold sub32 add32 wrap32
    omega
  · unfold sub32 add32 mul32 wrap32
    omega

theorem toJDN_eq_spec {d : Date} (hday : 1 ≤ d.day ∧ d.day ≤ 31)
    (hm : 1 ≤ d.month ∧ d.month ≤ 12) (hy : -4799 ≤ d.year ∧ d.year ≤ 2147478847) :
    d.toJDN = specJDN d.day d.month d.year := by
  obtain ⟨ea, ey, em⟩ := toJDN_locals hm hy
  rw [specJDN_eq]
  unfold Date.toJDN
  simp only [ea, ey, em]
  generalize hA : (14 - d.month) / 12 = a
  have ha : 0 ≤ a ∧ a ≤ 1 := by omega
  have hY : 0 ≤ d.year + 4800 - a := by omega
  have hM : 0 ≤ d.month + 12 * a - 3 ∧ d.month + 12 * a - 3 ≤ 11 := by omega
  have e1 : mul64 153 (d.month + 12 * a - 3) = 153 * (d.month + 12 * a - 3) := by
    unfold mul64 wrap64
    omega
  have e2 : add64 (153 * (d.month + 12 * a - 3)) 2 = 153 * (d.month + 12 * a - 3) + 2 := by
    unfold add64 wrap64
    omega
  rw [e1, e2, tdiv_of_nonneg (a := 153 * (d.month + 12 * a - 3) + 2) (by omega) (by decide),
    tdiv_of_nonneg hY (show (0 : Int) ≤ 4 by decide),
    tdiv_of_nonneg hY (show (0 : Int) ≤ 100 by decide),
    tdiv_of_nonneg hY (show (0 : Int) ≤ 400 by decide)]
  unfold sub64 add64 mul64 wrap64
  omega

theorem toJDNChecked_eq_spec {d : Date} (hday : 1 ≤ d.day ∧ d.day ≤ 31)
    (hm : 1 ≤ d.month ∧ d.month ≤ 12) (hy : -4799 ≤ d.year ∧ d.year ≤ 2147478847) :
    d.toJDNChecked = some (specJDN d.day d.month d.year) := by
  rw [specJDN_eq]
  unfold Date.toJDNChecked
  have ea : Int.tdiv (14 - d.month) 12 = (14 - d.month) / 12 :=
    tdiv_of_nonneg (by omega) (by decide)
  simp only [ea]
  generalize hA : (14 - d.month) / 12 = a
  have ha : 0 ≤ a ∧ a ≤ 1 := by omega
  have hY : 0 ≤ d.year + 4800 - a := by omega
  rw [tdiv_of_nonneg (a := 153 * (d.month + 12 * a - 3) + 2) (by omega) (by decide),
    tdiv_of_nonneg hY (show (0 : Int) ≤ 4 by decide),
    tdiv_of_nonneg hY (show (0 : Int) ≤ 100 by decide),
    tdiv_of_nonneg hY (show (0 : Int) ≤ 400 by decide)]
  rw [if_pos]
  unfold inInt32 inInt64
  omega

theorem nextDay_eq {d : Date} (v : d.isValid = some true) :
    nextDay d = some (nextDayExact d) := by
  have b := valid_bounds v
  unfold nextDay
  rw [daysInMonth_eq d.year b.2.1 b.2.2.1]
  unfold nextDayExact
  simp only
  split_ifs <;> rfl

theorem nextDayExact_valid {d : Date} (v : d.isValid = some true) :
    (nextDayExact d).isValid = some true := by
  have h := (isValid_true_iff d).1 v
  rw [isValid_true_iff]
  unfold nextDayExact
  split_ifs with h1 h2
  · simp only
    omega
  · have hb := monthLength_bounds (d.month + 1) d.year
    simp only
    omega
  · have hb := monthLength_bounds 1 (d.year + 1)
    simp only
    omega

/-- The Gregorian leap correction gained when the shifted year passes from `year + 4799` to
`year + 4800`: one day exactly in a leap year. -/
theorem leap_step (year : Int) :
    (year + 4800) / 4 - (year + 4800) / 100 + (year + 4800) / 400
      = (year + 4799) / 4 - (year + 4799) / 100 + (year + 4799) / 400
        + (if isLeapYear year = true then 1 else 0) := by
  have hl := isLeapYear_iff year
  by_cases h400 : (400 : Int) ∣ year
  · rw [if_pos (hl.2 (Or.inr h400))]
    obtain ⟨k, rfl⟩ := h400
    omega
  · by_cases h100 : (100 : Int) ∣ year
    · have hn : ¬ isLeapYear year = true := by
        intro h
        rcases hl.1 h with h1 | h1
        · exact h1.2 h100
        · exact h400 h1
      rw [if_neg hn]
      obtain ⟨k, rfl⟩ := h100
      omega
    · by_cases h4 : (4 : Int) ∣ year
      · rw [if_pos (hl.2 (Or.inl ⟨h4, h100⟩))]
        obtain ⟨k, rfl⟩ := h4
        omega
      · have hn : ¬ isLeapYear year = true := by
          intro h
          rcases hl.1 h with h1 | h1
          · exact h4 h1.1
          · exact h4 (Dvd.dvd.trans (by decide) h1)
        rw [if_neg hn]
        omega

theorem specJDN_succ_day (day month year : Int) :
    specJDN (day + 1) month year = specJDN day month year + 1 := by
  simp only [specJDN_eq]
  omega

theorem specJDN_succ_month (month year : Int) (h1 : 1 ≤ month) (h11 : month < 12) :
    specJDN 1 (month + 1) year = specJDN (monthLength month year) month year + 1 := by
  have hs := leap_step year
  simp only [specJDN_eq, monthLength]
  interval_cases month <;> norm_num <;> split_ifs at hs ⊢ <;> omega

theorem specJDN_succ_year (year : Int) :
    specJDN 1 1 (year + 1) = specJDN 31 12 year + 1 := by
  simp only [specJDN_eq]
  omega

theorem specJDN_nextDay {d : Date} (v : d.isValid = some true) :
    specJDN (nextDayExact d).day (nextDayExact d).month (nextDayExact d).year
      = specJDN d.day d.month d.year + 1 := by
  have h := (isValid_true_iff d).1 v
  unfold nextDayExact
  split_ifs with h1 h2
  · exact specJDN_succ_day _ _ _
  · have e : d.day = monthLength d.month d.year := by omega
    rw [e]
    exact specJDN_succ_month _ _ h.2.1 h2
  · have e12 : d.month = 12 := by omega
    have e : d.day = 31 := by
      have hn : monthLength d.month d.year = 31 := by
        rw [e12]
        simp [monthLength]
      omega
    rw [e12, e]
    exact specJDN_succ_year _

theorem dayOfWeek_unfold (day month year tm : Int)
    (ht : tableAt sakamoto (sub32 month 1) = some tm) :
    (Date.mk day month year).dayOfWeek
      = some (sakamotoSum (sub32 year (if month < 3 then 1 else 0)) tm day) := by
  unfold Date.dayOfWeek
  simp only [ht]
  rfl

theorem sakamotoSum_eq (y tm day : Int) (hy : 0 ≤ y ∧ y ≤ 1717986918)
    (ht : 0 ≤ tm ∧ tm ≤ 6) (hd : 1 ≤ day ∧ day ≤ 31) :
    sakamotoSum y tm day = (y + y / 4 - y / 100 + y / 400 + tm + day) % 7 := by
  unfold sakamotoSum
  rw [tdiv_of_nonneg hy.1 (show (0 : Int) ≤ 4 by decide),
    tdiv_of_nonneg hy.1 (show (0 : Int) ≤ 100 by decide),
    tdiv_of_nonneg hy.1 (show (0 : Int) ≤ 400 by decide)]
  have es : add32 (add32 (add32 (sub32 (add32 y (y / 4)) (y / 100)) (y / 400)) tm) day
      = y + y / 4 - y / 100 + y / 400 + tm + day := by
    unfold add32 sub32 wrap32
    omega
  simp only [es]
  rw [tmod_of_nonneg (by omega) (show (0 : Int) ≤ 7 by decide)]
  rw [if_neg (by omega)]

theorem shift_div (y : Int) :
    (y + 4800) / 4 = y / 4 + 1200 ∧ (y + 4800) / 100 = y / 100 + 48
      ∧ (y + 4800) / 400 = y / 400 + 12 := by
  refine ⟨?_, ?_, ?_⟩ <;> omega

/-- The weekday of Sakamoto's sum on the shifted year `y` agrees with the weekday of a Julian
Day Number written on `y + 4800`, when the month offsets agree modulo 7. -/
theorem weekday_core (y day tm k : Int)
    (hk : (k + 365 * 4800 + 1200 - 48 + 12 - 32045 + 1 - tm) % 7 = 0) :
    (y + y / 4 - y / 100 + y / 400 + tm + day) % 7
      = (day + k + 365 * (y + 4800) + (y + 4800) / 4 - (y + 4800) / 100 + (y + 4800) / 400
          - 32045 + 1) % 7 := by
  obtain ⟨h1, h2, h3⟩ := shift_div y
  rw [h1, h2, h3]
  omega

/-- Sakamoto's sum, computed without any 32-bit wrap, is the weekday of the Julian Day Number. -/
theorem dayOfWeek_eq_spec {d : Date} (hday : 1 ≤ d.day ∧ d.day ≤ 31)
    (hm : 1 ≤ d.month ∧ d.month ≤ 12) (hy : 1 ≤ d.year)
    (hb : d.year - (if d.month < 3 then 1 else 0) ≤ 1717986918) :
    d.dayOfWeek = some ((specJDN d.day d.month d.year + 1) % 7) := by
  obtain ⟨day, month, year⟩ := d
  simp only at hday hm hy hb
  obtain ⟨hm1, hm12⟩ := hm
  have hcase : ∀ m c tm k : Int, (if m < 3 then (1 : Int) else 0) = c →
      year - c ≤ 1717986918 → 0 ≤ c ∧ c ≤ 1 →
      tableAt sakamoto (sub32 m 1) = some tm → 0 ≤ tm ∧ tm ≤ 6 →
      (k + 365 * 4800 + 1200 - 48 + 12 - 32045 + 1 - tm) % 7 = 0
        ∧ specJDN day m year = day + k + 365 * (year - c + 4800) + (year - c + 4800) / 4
          - (year - c + 4800) / 100 + (year - c + 4800) / 400 - 32045 →
      (Date.mk day m year).dayOfWeek = some ((specJDN day m year + 1) % 7) := by
    intro m c tm k hc hyb hc01 htm htb hk
    rw [dayOfWeek_unfold day m year tm htm, hc]
    have ey : sub32 year c = year - c := by
      unfold sub32 wrap32
      omega
    rw [ey, sakamotoSum_eq _ _ _ (by omega) htb hday, hk.2, weekday_core (year - c) day tm k hk.1]
  interval_cases month
  · exact hcase 1 1 0 306 (by decide) (by omega) (by decide)
      (by decide) (by decide) ⟨by decide, by rw [specJDN_eq]; omega⟩
  · exact hcase 2 1 3 337 (by decide) (by omega) (by decide)
      (by decide) (by decide) ⟨by decide, by rw [specJDN_eq]; omega⟩
  · exact hcase 3 0 2 0 (by decide) (by omega) (by decide)
      (by decide) (by decide) ⟨by decide, by rw [specJDN_eq]; omega⟩
  · exact hcase 4 0 5 31 (by decide) (by omega) (by decide)
      (by decide) (by decide) ⟨by decide, by rw [specJDN_eq]; omega⟩
  · exact hcase 5 0 0 61 (by decide) (by omega) (by decide)
      (by decide) (by decide) ⟨by decide, by rw [specJDN_eq]; omega⟩
  · exact hcase 6 0 3 92 (by decide) (by omega) (by decide)
      (by decide) (by decide) ⟨by decide, by rw [specJDN_eq]; omega⟩
  · exact hcase 7 0 5 122 (by decide) (by omega) (by decide)
      (by decide) (by decide) ⟨by decide, by rw [specJDN_eq]; omega⟩
  · exact hcase 8 0 1 153 (by decide) (by omega) (by decide)
      (by decide) (by decide) ⟨by decide, by rw [specJDN_eq]; omega⟩
  · exact hcase 9 0 4 184 (by decide) (by omega) (by decide)
      (by decide) (by decide) ⟨by decide, by rw [specJDN_eq]; omega⟩
  · exact hcase 10 0 6 214 (by decide) (by omega) (by decide)
      (by decide) (by decide) ⟨by decide, by rw [specJDN_eq]; omega⟩
  · exact hcase 11 0 2 245 (by decide) (by omega) (by decide)
      (by decide) (by decide) ⟨by decide, by rw [specJDN_eq]; omega⟩
  · exact hcase 12 0 4 275 (by decide) (by omega) (by decide)
      (by decide) (by decide) ⟨by decide, by rw [specJDN_eq]; omega⟩

theorem prevMonthLength_bounds (today : Date) :
    28 ≤ prevMonthLength today ∧ prevMonthLength today ≤ 31 := by
  unfold prevMonthLength
  have hb := monthLength_bounds (today.month - 1) today.year
  split_ifs <;> omega

/-- The part of the bound on `days` that the code does meet: on valid dates the field is at most
30, below the length of the month borrowed from whenever a borrow is needed, and never below
-2. -/
theorem compute_days_bounds {dob today : Date} (hd : dob.inRange) (ht : today.inRange)
    (vd : dob.isValid = some true) (vt : today.isValid = some true) :
    ∃ r, compute dob today = some r ∧ -2 ≤ r.days ∧ r.days ≤ 30
      ∧ (today.day < dob.day → r.days < prevMonthLength today) := by
  have bd := valid_bounds vd
  have bt := valid_bounds vt
  have hp := prevMonthLength_bounds today
  refine ⟨_, compute_eq hd ht vd vt, ?_⟩
  unfold computeExact
  simp only
  split_ifs <;> simp only <;> omega

/-- The year the weekday formula works on stays small enough on the successor of a date. -/
theorem nextDayExact_year_shift {d : Date} (v : d.isValid = some true) (n : Int)
    (hy : d.year ≤ n) :
    (nextDayExact d).year - (if (nextDayExact d).month < 3 then 1 else 0) ≤ n
      ∧ (nextDayExact d).year ≤ n + 1 := by
  have b := valid_bounds v
  unfold nextDayExact
  by_cases h1 : d.day < monthLength d.month d.year
  · rw [if_pos h1]
    simp only
    constructor
    · split_ifs <;> omega
    · omega
  · rw [if_neg h1]
    by_cases h2 : d.month < 12
    · rw [if_pos h2]
      simp only
      constructor
      · split_ifs <;> omega
      · omega
    · rw [if_neg h2]
      simp only
      constructor
      · rw [if_pos (by decide)]
        omega
      · omega

theorem le_iff (a b : Date) :
    a.le b = true ↔
      (a.year < b.year ∨ (a.year = b.year ∧ (a.month < b.month
        ∨ (a.month = b.month ∧ a.day ≤ b.day)))) := by
  unfold Date.le
  split_ifs with h1 h2 <;> simp only [decide_eq_true_eq] <;> omega

theorem le_false_iff (a b : Date) :
    a.le b = false ↔
      (b.year < a.year ∨ (b.year = a.year ∧ (b.month < a.month
        ∨ (b.month = a.month ∧ b.day < a.day)))) := by
  rw [← Bool.not_eq_true, le_iff]
  omega

theorem date_ext {a b : Date} (hd : a.day = b.day) (hm : a.month = b.month)
    (hy : a.year = b.year) : a = b := by
  cases a
  cases b
  simp only at hd hm hy
  subst hd hm hy
  rfl

theorem classify_cases (y : Int) :
    (y ≤ 2 ∧ classify y = babyLabel) ∨ (3 ≤ y ∧ y ≤ 12 ∧ classify y = childLabel)
      ∨ (13 ≤ y ∧ y ≤ 19 ∧ classify y = teenLabel)
      ∨ (20 ≤ y ∧ y ≤ 59 ∧ classify y = adultLabel)
      ∨ (60 ≤ y ∧ classify y = seniorLabel) := by
  unfold classify
  split_ifs with h1 h2 h3 h4
  · exact Or.inl ⟨h1, rfl⟩
  · exact Or.inr (Or.inl ⟨by omega, h2, rfl⟩)
  · exact Or.inr (Or.inr (Or.inl ⟨by omega, h3, rfl⟩))
  · exact Or.inr (Or.inr (Or.inr (Or.inl ⟨by omega, h4, rfl⟩)))
  · exact Or.inr (Or.inr (Or.inr (Or.inr ⟨by omega, rfl⟩)))

theorem tdiv_eq_of_pos (a b : Int) (hb : 0 < b) :
    Int.tdiv a b = if 0 ≤ a then a / b else -((-a) / b) := by
  split_ifs with h
  · exact tdiv_of_nonneg h (by omega)
  · have h1 : Int.tdiv (-(-a)) b = -(Int.tdiv (-a) b) := Int.neg_tdiv (-a) b
    rw [neg_neg] at h1
    rw [h1, tdiv_of_nonneg (by omega) (by omega)]

theorem tmod_eq_of_pos (a b : Int) (hb : 0 < b) :
    Int.tmod a b = a - b * (if 0 ≤ a then a / b else -((-a) / b)) := by
  rw [Int.tmod_def, tdiv_eq_of_pos a b hb]

/-- The remainder of a division by 7 lies strictly between -7 and 7. -/
theorem tmod_seven_bounds (a : Int) : -7 < Int.tmod a 7 ∧ Int.tmod a 7 < 7 := by
  rw [tmod_eq_of_pos a 7 (by decide)]
  split_ifs <;> omega

/-- The quotient of a truncating division by a positive number lies between 0 and the
dividend. -/
theorem tdiv_between (a b : Int) (hb : 0 < b) :
    (0 ≤ a → 0 ≤ Int.tdiv a b ∧ Int.tdiv a b ≤ a)
      ∧ (a ≤ 0 → a ≤ Int.tdiv a b ∧ Int.tdiv a b ≤ 0) := by
  rw [tdiv_eq_of_pos a b hb]
  constructor
  · intro ha
    rw [if_pos ha]
    exact ⟨Int.ediv_nonneg ha (by omega), Int.ediv_le_self b ha⟩
  · intro ha
    by_cases h0 : 0 ≤ a
    · have e : a = 0 := by omega
      rw [if_pos h0, e]
      simp
    · rw [if_neg h0]
      have h1 : 0 ≤ -a := by omega
      have h2 := Int.ediv_nonneg h1 (show (0 : Int) ≤ b by omega)
      have h3 := Int.ediv_le_self b h1
      omega

theorem wrap32_inInt32 (x : Int) : inInt32 (wrap32 x) := by
  unfold inInt32 wrap32
  omega

theorem wrap64_inInt64 (x : Int) : inInt64 (wrap64 x) := by
  unfold inInt64 wrap64
  omega

/-- The table read of the borrow step is in bounds when `today.month` is in 1..13. -/
theorem dayBorrow_isSome (today : Date) (m d : Int)
    (hm : 1 ≤ today.month ∧ today.month ≤ 13) :
    ∃ p, dayBorrow today m d = some p := by
  unfold dayBorrow
  split_ifs with h
  · have hpm : sub32 today.month 1 = today.month - 1 := by
      unfold sub32 wrap32
      omega
    simp only [hpm]
    by_cases h1 : today.month - 1 = 0
    · rw [if_pos h1]
      simp only
      rw [daysInMonth_eq _ (by decide) (by decide)]
      exact ⟨_, rfl⟩
    · rw [if_neg h1]
      simp only
      rw [daysInMonth_eq _ (by omega) (by omega)]
      exact ⟨_, rfl⟩
  · exact ⟨_, rfl⟩

/-- The result of `compute` in terms of its two borrow steps. -/
theorem compute_of_dayBorrow (dob today : Date) (m1 d1 : Int)
    (h : dayBorrow today (sub32 today.month dob.month) (sub32 today.day dob.day)
      = some (m1, d1)) :
    compute dob today =
      some (if (monthBorrow (sub32 today.year dob.year) m1).1 < 0
        then ⟨0, 0, 0, totalDaysOf dob today⟩
        else ⟨(monthBorrow (sub32 today.year dob.year) m1).1,
          (monthBorrow (sub32 today.year dob.year) m1).2, d1, totalDaysOf dob today⟩) := by
  unfold compute
  simp only [h]
  split_ifs <;> rfl

theorem compute_isSome (dob today : Date) (hm : 1 ≤ today.month ∧ today.month ≤ 13) :
    ∃ r, compute dob today = some r ∧ r.totalDays = totalDaysOf dob today := by
  obtain ⟨⟨m1, d1⟩, hp⟩ := dayBorrow_isSome today (sub32 today.month dob.month)
    (sub32 today.day dob.day) hm
  rw [compute_of_dayBorrow dob today m1 d1 hp]
  split_ifs
  · exact ⟨_, rfl, rfl⟩
  · exact ⟨_, rfl, rfl⟩

theorem compute_totalDays {dob today : Date} {r : Age} (h : compute dob today = some r) :
    r.totalDays = totalDaysOf dob today := by
  unfold compute at h
  simp only at h
  split at h
  · cases h
  · split_ifs at h <;> cases h <;> rfl

/-- The years of `compute` on valid dates: the difference of the years, less one when the
month and day of `today` come before those of `dob`. -/
theorem computeExact_years {dob today : Date} (vd : dob.isValid = some true)
    (vt : today.isValid = some true) (hle : dob.le today = true) :
    (computeExact dob today).years
      = today.year - dob.year
        - (if today.month < dob.month ∨ (today.month = dob.month ∧ today.day < dob.day)
            then 1 else 0) := by
  have bd := valid_bounds vd
  have bt := valid_bounds vt
  rw [le_iff] at hle
  unfold computeExact
  simp only
  split_ifs <;> simp only <;> omega

theorem stageIndex_classify_mono {y1 y2 : Int} (h : y1 ≤ y2) :
    stageIndex (classify y1) ≤ stageIndex (classify y2) := by
  rcases classify_cases y1 with ⟨h1, c1⟩ | ⟨h1, g1, c1⟩ | ⟨h1, g1, c1⟩ | ⟨h1, g1, c1⟩ | ⟨h1, c1⟩ <;>
    rcases classify_cases y2 with ⟨h2, c2⟩ | ⟨h2, g2, c2⟩ | ⟨h2, g2, c2⟩ | ⟨h2, g2, c2⟩
      | ⟨h2, c2⟩ <;>
    rw [c1, c2] <;> first | omega | decide

/-- The offset table of `dayOfWeek` is read inside its bounds for a month in 1..12. -/
theorem sakamoto_lookup {m : Int} (h1 : 1 ≤ m) (h12 : m ≤ 12) :
    (0 ≤ sub32 m 1 ∧ sub32 m 1 ≤ 11)
      ∧ ∃ tm, tableAt sakamoto (sub32 m 1) = some tm := by
  constructor
  · unfold sub32 wrap32
    omega
  · interval_cases m <;> exact Option.isSome_iff_exists.mp (by decide)

theorem dayOfWeek_range (d : Date) (hm : 1 ≤ d.month ∧ d.month ≤ 12) :
    ∃ w, d.dayOfWeek = some w ∧ 0 ≤ w ∧ w ≤ 6 := by
  obtain ⟨day, month, year⟩ := d
  simp only at hm
  obtain ⟨_, tm, ht⟩ := sakamoto_lookup hm.1 hm.2
  rw [dayOfWeek_unfold day month year tm ht]
  refine ⟨_, rfl, ?_⟩
  unfold sakamotoSum
  simp only
  generalize add32 (add32 (add32 (sub32 (add32 (sub32 year (if month < 3 then 1 else 0))
    (Int.tdiv (sub32 year (if month < 3 then 1 else 0)) 4))
    (Int.tdiv (sub32 year (if month < 3 then 1 else 0)) 100))
    (Int.tdiv (sub32 year (if month < 3 then 1 else 0)) 400)) tm) day = s
  have hb := tmod_seven_bounds s
  split_ifs with h
  · unfold add32 wrap32
    omega
  · omega

theorem names_lookup {w : Int} (h0 : 0 ≤ w) (h6 : w ≤ 6) :
    ∃ s, names.get? w.toNat = some s := by
  interval_cases w <;> exact Option.isSome_iff_exists.mp (by decide)

theorem dayName_isSome (d : Date) (hm : 1 ≤ d.month ∧ d.month ≤ 12) :
    ∃ s, d.dayName = some s := by
  obtain ⟨w, hw, h0, h6⟩ := dayOfWeek_range d hm
  obtain ⟨s, hs⟩ := names_lookup h0 h6
  unfold Date.dayName
  rw [hw]
  simp only
  rw [if_pos h0]
  exact ⟨s, hs⟩

theorem leapCount_step (y : Int) :
    leapCount y ≤ leapCount (y + 1) ∧ leapCount (y + 1) ≤ leapCount y + 1 := by
  unfold leapCount
  by_cases h400 : (400 : Int) ∣ (y + 1)
  · obtain ⟨k, hk⟩ := h400
    have e : y = 400 * k - 1 := by omega
    subst e
    omega
  · by_cases h100 : (100 : Int) ∣ (y + 1)
    · obtain ⟨k, hk⟩ := h100
      have e : y = 100 * k - 1 := by omega
      subst e
      omega
    · by_cases h4 : (4 : Int) ∣ (y + 1)
      · obtain ⟨k, hk⟩ := h4
        have e : y = 4 * k - 1 := by omega
        subst e
        omega
      · omega

theorem leapCount_mono {y z : Int} (h : y ≤ z) : leapCount y ≤ leapCount z := by
  exact Int.le_induction (P := fun n => leapCount y ≤ leapCount n) (le_refl _)
    (fun n _ ih => le_trans ih (leapCount_step n).1) z h

theorem specJDN_march (day month year : Int) :
    specJDN day month year =
      day + (153 * marchMonth month + 2) / 5 + 365 * marchYear month year
        + leapCount (marchYear month year) - 32045 := by
  rw [specJDN_eq]
  unfold marchMonth marchYear leapCount
  omega

theorem march_bounds_fields (day month year : Int) (hm1 : 1 ≤ month) (hm12 : month ≤ 12)
    (hdn : day ≤ monthLength month year) :
    (0 ≤ marchMonth month ∧ marchMonth month ≤ 11)
      ∧ (marchMonth month ≤ 10 →
          day + (153 * marchMonth month + 2) / 5 ≤ (153 * (marchMonth month + 1) + 2) / 5)
      ∧ day + (153 * marchMonth month + 2) / 5
          ≤ 365 + leapCount (marchYear month year + 1) - leapCount (marchYear month year) := by
  have hs := leap_step year
  have hstep := leapCount_step (marchYear month year)
  unfold leapCount at hstep
  unfold marchYear at hstep
  unfold marchMonth marchYear leapCount
  by_cases hleap : isLeapYear year = true
  · simp only [hleap, if_true] at hs
    interval_cases month <;> norm_num [monthLength, hleap] at hdn <;>
      refine ⟨⟨?_, ?_⟩, ?_, ?_⟩ <;> omega
  · simp only [hleap, if_false] at hs
    interval_cases month <;> norm_num [monthLength, hleap] at hdn <;>
      refine ⟨⟨?_, ?_⟩, ?_, ?_⟩ <;> omega

/-- The position of a valid date inside its shifted year. -/
theorem march_bounds {d : Date} (v : d.isValid = some true) :
    (0 ≤ marchMonth d.month ∧ marchMonth d.month ≤ 11)
      ∧ (marchMonth d.month ≤ 10 →
          d.day + (153 * marchMonth d.month + 2) / 5
            ≤ (153 * (marchMonth d.month + 1) + 2) / 5)
      ∧ d.day + (153 * marchMonth d.month + 2) / 5
          ≤ 365 + leapCount (marchYear d.month d.year + 1)
            - leapCount (marchYear d.month d.year) := by
  have h := (isValid_true_iff d).1 v
  exact march_bounds_fields d.day d.month d.year h.2.1 h.2.2.1 h.2.2.2.2

theorem march_before {a b : Date} (va : a.isValid = some true) (vb : b.isValid = some true)
    (h : a.before b) :
    marchYear a.month a.year < marchYear b.month b.year
      ∨ (marchYear a.month a.year = marchYear b.month b.year
        ∧ (marchMonth a.month < marchMonth b.month
          ∨ (marchMonth a.month = marchMonth b.month ∧ a.day < b.day))) := by
  have ba := valid_bounds va
  have bb := valid_bounds vb
  unfold Date.before at h
  unfold marchYear marchMonth
  omega

/-- The Julian Day Number of the specification is strictly increasing on valid dates. -/
theorem specJDN_strict_mono {a b : Date} (va : a.isValid = some true)
    (vb : b.isValid = some true) (h : a.before b) :
    specJDN a.day a.month a.year < specJDN b.day b.month b.year := by
  have ba := valid_bounds va
  have bb := valid_bounds vb
  obtain ⟨hma, hna, hya⟩ := march_bounds va
  obtain ⟨hmb, _, _⟩ := march_bounds vb
  rw [specJDN_march, specJDN_march]
  rcases march_before va vb h with hY | ⟨hY, hM | ⟨hM, hD⟩⟩
  · have hl := leapCount_mono (show marchYear a.month a.year + 1 ≤ marchYear b.month b.year
      by omega)
    omega
  · rw [hY]
    have hna2 := hna (by omega)
    omega
  · rw [hY, hM]
    omega

/-- The Julian Day Number of any date held in `int` fields is far inside the 64-bit range. -/
theorem toJDN_bound (d : Date) (hr : d.inRange) :
    -4398046511104 ≤ d.toJDN ∧ d.toJDN ≤ 4398046511104 := by
  have hday := hr.1
  have hy : inInt32 (sub32 (add32 d.year 4800) (Int.tdiv (sub32 14 d.month) 12)) :=
    wrap32_inInt32 _
  have hm : inInt32 (sub32 (add32 d.month (mul32 12 (Int.tdiv (sub32 14 d.month) 12))) 3) :=
    wrap32_inInt32 _
  unfold Date.toJDN
  simp only
  generalize sub32 (add32 d.year 4800) (Int.tdiv (sub32 14 d.month) 12) = y at hy ⊢
  generalize sub32 (add32 d.month (mul32 12 (Int.tdiv (sub32 14 d.month) 12))) 3 = m at hm ⊢
  unfold inInt32 at hday hy hm
  have e0 : mul64 153 m = 153 * m := wrap64_of_inInt64 (by unfold inInt64; omega)
  have e1 : add64 (mul64 153 m) 2 = 153 * m + 2 := by
    rw [e0]
    exact wrap64_of_inInt64 (by unfold inInt64; omega)
  rw [e1]
  have b5 := tdiv_between (153 * m + 2) 5 (by decide)
  have b4 := tdiv_between y 4 (by decide)
  have b100 := tdiv_between y 100 (by decide)
  have b400 := tdiv_between y 400 (by decide)
  generalize Int.tdiv (153 * m + 2) 5 = t5 at b5 ⊢
  generalize Int.tdiv y 4 = t4 at b4 ⊢
  generalize Int.tdiv y 100 = t100 at b100 ⊢
  generalize Int.tdiv y 400 = t400 at b400 ⊢
  have c5 : -328565000000 ≤ t5 ∧ t5 ≤ 328565000000 := by omega
  have c4 : -2147483648 ≤ t4 ∧ t4 ≤ 2147483648 := by omega
  have c100 : -2147483648 ≤ t100 ∧ t100 ≤ 2147483648 := by omega
  have c400 : -2147483648 ≤ t400 ∧ t400 ≤ 2147483648 := by omega
  clear b5 b4 b100 b400
  have s1 : add64 d.day t5 = d.day + t5 :=
    wrap64_of_inInt64 (by unfold inInt64; omega)
  have s2 : mul64 365 y = 365 * y :=
    wrap64_of_inInt64 (by unfold inInt64; omega)
  have s3 : add64 (d.day + t5) (365 * y) = d.day + t5 + 365 * y :=
    wrap64_of_inInt64 (by unfold inInt64; omega)
  have s4 : add64 (d.day + t5 + 365 * y) t4 = d.day + t5 + 365 * y + t4 :=
    wrap64_of_inInt64 (by unfold inInt64; omega)
  have s5 : sub64 (d.day + t5 + 365 * y + t4) t100 = d.day + t5 + 365 * y + t4 - t100 :=
    wrap64_of_inInt64 (by unfold inInt64; omega)
  have s6 : add64 (d.day + t5 + 365 * y + t4 - t100) t400
      = d.day + t5 + 365 * y + t4 - t100 + t400 :=
    wrap64_of_inInt64 (by unfold inInt64; omega)
  have s7 : sub64 (d.day + t5 + 365 * y + t4 - t100 + t400) 32045
      = d.day + t5 + 365 * y + t4 - t100 + t400 - 32045 :=
    wrap64_of_inInt64 (by unfold inInt64; omega)
  rw [s1, s2, s3, s4, s5, s6, s7]
  omega

/-- The total-days part of `compute` is the clamped difference, exactly. -/
theorem totalDaysOf_eq (dob today : Date) (hd : dob.inRange) (ht : today.inRange) :
    totalDaysOf dob today = max 0 (today.toJDN - dob.toJDN) ∧ 0 ≤ totalDaysOf dob today := by
  have bd := toJDN_bound dob hd
  have bt := toJDN_bound today ht
  have e : sub64 today.toJDN dob.toJDN = today.toJDN - dob.toJDN :=
    wrap64_of_inInt64 (by unfold inInt64; omega)
  unfold totalDaysOf
  simp only [e]
  rw [max_def]
  split_ifs <;> constructor <;> omega

theorem le_cases {a b : Date} (h : a.le b = true) : a = b ∨ a.before b := by
  rw [le_iff] at h
  by_cases hy : a.year = b.year
  · by_cases hm : a.month = b.month
    · by_cases hd : a.day = b.day
      · exact Or.inl (date_ext hd hm hy)
      · right
        unfold Date.before
        omega
    · right
      unfold Date.before
      omega
  · right
    unfold Date.before
    omega

theorem before_of_le_false {a b : Date} (h : a.le b = false) : b.before a :=
  (le_false_iff a b).1 h

theorem before_ne {a b : Date} (h : a.before b) : a ≠ b := by
  intro e
  subst e
  unfold Date.before at h
  omega

/-- `toJDN` is strictly increasing on valid dates whose year leaves room for `year + 4800`. -/
theorem toJDN_strict_mono {a b : Date} (va : a.isValid = some true)
    (vb : b.isValid = some true) (hb : b.year ≤ 2147478847) (h : a.before b) :
    a.toJDN < b.toJDN := by
  have ba := valid_bounds va
  have bb := valid_bounds vb
  have hya : a.year ≤ 2147478847 := by
    unfold Date.before at h
    omega
  rw [toJDN_eq_spec (d := a) ⟨ba.2.2.2.1, ba.2.2.2.2⟩ ⟨ba.2.1, ba.2.2.1⟩ ⟨by omega, hya⟩,
    toJDN_eq_spec (d := b) ⟨bb.2.2.2.1, bb.2.2.2.2⟩ ⟨bb.2.1, bb.2.2.1⟩ ⟨by omega, hb⟩]
  exact specJDN_strict_mono va vb h

theorem computeExact_self (d : Date) (hr : d.inRange) :
    computeExact d d = ⟨0, 0, 0, 0⟩ := by
  have ht := (totalDaysOf_eq d d hr hr).1
  rw [sub_self, max_self] at ht
  unfold computeExact
  simp only [sub_self, lt_irrefl, if_false, ht]

/-- When `dob` is strictly after `today`, the year left by the two borrow steps is negative
and `compute` returns zero years, months and days. -/
theorem computeExact_future {dob today : Date} (vd : dob.isValid = some true)
    (vt : today.isValid = some true) (h : today.before dob) :
    computeExact dob today = ⟨0, 0, 0, totalDaysOf dob today⟩ := by
  have bd := valid_bounds vd
  have bt := valid_bounds vt
  unfold Date.before at h
  unfold computeExact
  simp only
  rw [if_pos]
  split_ifs <;> simp only <;> omega

theorem prevMonthLength_of_next {dob today : Date} (vd : dob.isValid = some true)
    (hm : today.month - 1 = dob.month) (hy : today.year = dob.year) :
    prevMonthLength today = monthLength dob.month dob.year := by
  have bd := valid_bounds vd
  unfold prevMonthLength
  rw [if_neg (by omega), hm, hy]

theorem prevMonthLength_january {today : Date} (hm : today.month = 1) :
    prevMonthLength today = 31 := by
  unfold prevMonthLength
  rw [if_pos hm]

/-- On valid dates with `dob <= today`, years, months and days are all zero only for the
same date. -/
theorem computeExact_zero {dob today : Date} (vd : dob.isValid = some true)
    (vt : today.isValid = some true) (hle : dob.le today = true)
    (h0 : (computeExact dob today).years = 0 ∧ (computeExact dob today).months = 0
      ∧ (computeExact dob today).days = 0) : dob = today := by
  have bd := valid_bounds vd
  have bt := valid_bounds vt
  have hdv := ((isValid_true_iff dob).1 vd).2.2.2.2
  have hp1 := @prevMonthLength_of_next dob today vd
  have hp2 := @prevMonthLength_january today
  have hp3 := prevMonthLength_bounds today
  rw [le_iff] at hle
  unfold computeExact at h0
  simp only at h0
  split_ifs at h0 <;> simp only at h0 <;>
    exact date_ext (by omega) (by omega) (by omega)

/-! ## The claims -/

/-- Claim C1: for valid dates `dob` and `today` with the same day and the same month and
`today.year ≥ dob.year`, `compute` returns `years = today.year - dob.year`, `months = 0` and
`days = 0`; in particular 07-02-2005 and 07-02-2025 give 20 years, 0 months, 0 days. -/
theorem C1_compute_same_day_and_month :
    (∀ dob today : Date, dob.inRange → today.inRange →
        dob.isValid = some true → today.isValid = some true →
        today.day = dob.day → today.month = dob.month → dob.year ≤ today.year →
        ∃ r, compute dob today = some r ∧ r.years = today.year - dob.year
          ∧ r.months = 0 ∧ r.days = 0)
      ∧ compute ⟨7, 2, 2005⟩ ⟨7, 2, 2025⟩ = some ⟨20, 0, 0, 7305⟩ := by
  refine ⟨?_, by decide⟩
  intro dob today hd ht vd vt hday hmon hyr
  refine ⟨_, compute_eq hd ht vd vt, ?_⟩
  unfold computeExact
  have h1 : ¬ today.day - dob.day < 0 := by omega
  have h2 : ¬ today.month - dob.month < 0 := by omega
  have h3 : ¬ today.year - dob.year < 0 := by omega
  simp only [if_neg h1, if_neg h2, if_neg h3, true_and]
  constructor <;> omega

theorem C1_compute_same_day_and_month_witness :
    (Date.mk 29 2 2004).isValid = some true ∧ (Date.mk 29 2 2024).isValid = some true
      ∧ ∃ r, compute ⟨29, 2, 2004⟩ ⟨29, 2, 2024⟩ = some r
        ∧ r.years = (Date.mk 29 2 2024).year - (Date.mk 29 2 2004).year
        ∧ r.months = 0 ∧ r.days = 0 :=
  ⟨by decide, by decide,
    C1_compute_same_day_and_month.1 ⟨29, 2, 2004⟩ ⟨29, 2, 2024⟩ (by decide) (by decide)
      (by decide) (by decide) (by decide) (by decide) (by decide)⟩

/-- Claim C2: for valid dates with `today.year > dob.year`, `today.month < dob.month` and
`today.day ≥ dob.day`, `compute` returns `years = today.year - dob.year - 1`,
`months = today.month - dob.month + 12` and `days = today.day - dob.day`; in particular
01-03-2000 and 15-02-2024 give 23 years, 11 months, 14 days. -/
theorem C2_compute_month_borrow :
    (∀ dob today : Date, dob.inRange → today.inRange →
        dob.isValid = some true → today.isValid = some true →
        dob.year < today.year → today.month < dob.month → dob.day ≤ today.day →
        ∃ r, compute dob today = some r ∧ r.years = today.year - dob.year - 1
          ∧ r.months = today.month - dob.month + 12 ∧ r.days = today.day - dob.day)
      ∧ compute ⟨1, 3, 2000⟩ ⟨15, 2, 2024⟩ = some ⟨23, 11, 14, 8751⟩ := by
  refine ⟨?_, by decide⟩
  intro dob today hd ht vd vt hyr hmon hday
  refine ⟨_, compute_eq hd ht vd vt, ?_⟩
  unfold computeExact
  have h1 : ¬ today.day - dob.day < 0 := by omega
  have h2 : today.month - dob.month < 0 := by omega
  have h3 : ¬ today.year - dob.year - 1 < 0 := by omega
  simp only [if_neg h1, if_pos h2, if_neg h3, and_self]

theorem C2_compute_month_borrow_witness :
    (Date.mk 10 11 1999).isValid = some true ∧ (Date.mk 20 4 2010).isValid = some true
      ∧ ∃ r, compute ⟨10, 11, 1999⟩ ⟨20, 4, 2010⟩ = some r
        ∧ r.years = (Date.mk 20 4 2010).year - (Date.mk 10 11 1999).year - 1
        ∧ r.months = (Date.mk 20 4 2010).month - (Date.mk 10 11 1999).month + 12
        ∧ r.days = (Date.mk 20 4 2010).day - (Date.mk 10 11 1999).day :=
  ⟨by decide, by decide,
    C2_compute_month_borrow.1 ⟨10, 11, 1999⟩ ⟨20, 4, 2010⟩ (by decide) (by decide)
      (by decide) (by decide) (by decide) (by decide) (by decide)⟩

/-- Claim C3, at the input where the code departs from it: `dob` = 31-01-2000 and
`today` = 01-03-2001 are valid and `dob <= today`, the day borrow adds the 28 days of
February 2001 to `1 - 31`, and `compute` returns `days = -2`. -/
theorem C3_days_negative_after_short_month :
    (Date.mk 31 1 2000).inRange ∧ (Date.mk 1 3 2001).inRange
      ∧ (Date.mk 31 1 2000).isValid = some true ∧ (Date.mk 1 3 2001).isValid = some true
      ∧ (Date.mk 31 1 2000).le (Date.mk 1 3 2001) = true
      ∧ daysInMonth 2 2001 = some 28
      ∧ compute ⟨31, 1, 2000⟩ ⟨1, 3, 2001⟩ = some ⟨1, 1, -2, 395⟩ := by
  decide

/-- Claim C4: for valid dates with `dob <= today`, `compute` returns `years ≥ 0` and
`0 ≤ months ≤ 11`. -/
theorem C4_years_months_range (dob today : Date) (hd : dob.inRange) (ht : today.inRange)
    (vd : dob.isValid = some true) (vt : today.isValid = some true)
    (_hle : dob.le today = true) :
    ∃ r, compute dob today = some r ∧ 0 ≤ r.years ∧ 0 ≤ r.months ∧ r.months ≤ 11 := by
  have bd := valid_bounds vd
  have bt := valid_bounds vt
  refine ⟨_, compute_eq hd ht vd vt, ?_⟩
  unfold computeExact
  simp only
  split_ifs <;> simp only <;> omega

theorem C4_years_months_range_witness :
    (Date.mk 31 12 1999).le (Date.mk 1 1 2000) = true
      ∧ ∃ r, compute ⟨31, 12, 1999⟩ ⟨1, 1, 2000⟩ = some r
        ∧ 0 ≤ r.years ∧ 0 ≤ r.months ∧ r.months ≤ 11 :=
  ⟨by decide,
    C4_years_months_range ⟨31, 12, 1999⟩ ⟨1, 1, 2000⟩ (by decide) (by decide) (by decide)
      (by decide) (by decide)⟩

/-- Claim C5 as stated fails: 01-01-2000000000 is a valid date, `toJDN` computes its Julian
Day Number without any overflow, the weekday `(toJDN + 1) mod 7` is 6, and `dayOfWeek`
returns 2, because `y + y/4` does not fit a 32-bit `int`. -/
theorem C5_dayOfWeek_wrong_for_huge_year :
    (Date.mk 1 1 2000000000).inRange ∧ (Date.mk 1 1 2000000000).isValid = some true
      ∧ (Date.mk 1 1 2000000000).toJDNChecked = some 730486721060
      ∧ (Date.mk 1 1 2000000000).toJDN = 730486721060
      ∧ ((Date.mk 1 1 2000000000).toJDN + 1) % 7 = 6
      ∧ (Date.mk 1 1 2000000000).dayOfWeek = some 2
      ∧ (Date.mk 1 1 2000000000).dayOfWeek
          ≠ some (((Date.mk 1 1 2000000000).toJDN + 1) % 7) := by
  decide

/-- Claim C5, amended: for every valid date with `year ≤ 1717986918` (the largest year for
which `y + y/4` fits a 32-bit `int`), `dayOfWeek` returns `(toJDN + 1) mod 7`, with
0 = Sunday .. 6 = Saturday, and the next calendar day gets the next weekday modulo 7; in
particular 2000-01-01 gives 6 and 2024-01-01 gives 1. -/
theorem C5_dayOfWeek_matches_jdn :
    (∀ d : Date, d.inRange → d.isValid = some true → d.year ≤ 1717986918 →
        d.dayOfWeek = some ((d.toJDN + 1) % 7)
          ∧ 0 ≤ (d.toJDN + 1) % 7 ∧ (d.toJDN + 1) % 7 ≤ 6
          ∧ ∃ n, nextDay d = some n
              ∧ n.dayOfWeek = some (((d.toJDN + 1) % 7 + 1) % 7))
      ∧ (Date.mk 1 1 2000).dayOfWeek = some 6 ∧ (Date.mk 1 1 2024).dayOfWeek = some 1 := by
  refine ⟨?_, by decide, by decide⟩
  intro d _ v hy
  have b := valid_bounds v
  have e1 := toJDN_eq_spec (d := d) ⟨b.2.2.2.1, b.2.2.2.2⟩ ⟨b.2.1, b.2.2.1⟩
    ⟨by omega, by omega⟩
  have e2 := dayOfWeek_eq_spec (d := d) ⟨b.2.2.2.1, b.2.2.2.2⟩ ⟨b.2.1, b.2.2.1⟩ b.1
    (by split_ifs <;> omega)
  refine ⟨by rw [e2, e1], by omega, by omega, nextDayExact d, nextDay_eq v, ?_⟩
  have v2 := nextDayExact_valid v
  have b2 := valid_bounds v2
  have hs := nextDayExact_year_shift v 1717986918 hy
  rw [dayOfWeek_eq_spec ⟨b2.2.2.2.1, b2.2.2.2.2⟩ ⟨b2.2.1, b2.2.2.1⟩ b2.1 hs.1,
    specJDN_nextDay v, e1]
  congr 1
  omega

theorem C5_dayOfWeek_matches_jdn_witness :
    (Date.mk 28 2 2023).isValid = some true ∧ (Date.mk 28 2 2023).year ≤ 1717986918
      ∧ (Date.mk 28 2 2023).dayOfWeek = some (((Date.mk 28 2 2023).toJDN + 1) % 7) :=
  ⟨by decide, by decide,
    (C5_dayOfWeek_matches_jdn.1 ⟨28, 2, 2023⟩ (by decide) (by decide) (by decide)).1⟩

/-- Claim C6 as stated fails: 29-02-2147478848 is a valid date whose next calendar day is
01-03-2147478848, and `toJDN` of the latter is not `toJDN` of the former plus one, because
`year + 4800` does not fit a 32-bit `int` (the checked computation overflows). -/
theorem C6_toJDN_successor_fails_for_huge_year :
    (Date.mk 29 2 2147478848).inRange ∧ (Date.mk 29 2 2147478848).isValid = some true
      ∧ nextDay ⟨29, 2, 2147478848⟩ = some ⟨1, 3, 2147478848⟩
      ∧ (Date.mk 1 3 2147478848).toJDNChecked = none
      ∧ (Date.mk 29 2 2147478848).toJDN = 784352264260
      ∧ (Date.mk 1 3 2147478848).toJDN = -784352328349
      ∧ (Date.mk 1 3 2147478848).toJDN ≠ (Date.mk 29 2 2147478848).toJDN + 1 := by
  decide

/-- Claim C6, amended: for every valid date `D` with `year ≤ 2147478846` (so that
`year + 4800` fits a 32-bit `int` for `D` and for its successor), the next calendar day
exists, is a valid date, and its `toJDN` is `toJDN D + 1`; this covers days inside a month,
month ends, the leap day and year ends. -/
theorem C6_toJDN_successor (d : Date) (_hr : d.inRange) (v : d.isValid = some true)
    (hy : d.year ≤ 2147478846) :
    ∃ n, nextDay d = some n ∧ n.isValid = some true ∧ n.toJDN = d.toJDN + 1 := by
  have b := valid_bounds v
  have v2 := nextDayExact_valid v
  have b2 := valid_bounds v2
  have hs := nextDayExact_year_shift v 2147478846 hy
  refine ⟨nextDayExact d, nextDay_eq v, v2, ?_⟩
  rw [toJDN_eq_spec (d := d) ⟨b.2.2.2.1, b.2.2.2.2⟩ ⟨b.2.1, b.2.2.1⟩ ⟨by omega, by omega⟩,
    toJDN_eq_spec ⟨b2.2.2.2.1, b2.2.2.2.2⟩ ⟨b2.2.1, b2.2.2.1⟩ ⟨by omega, by omega⟩,
    specJDN_nextDay v]

theorem C6_toJDN_successor_witness :
    ((Date.mk 29 2 2024).isValid = some true ∧ (Date.mk 29 2 2024).year ≤ 2147478846)
      ∧ ∃ n, nextDay ⟨29, 2, 2024⟩ = some n ∧ n.isValid = some true
          ∧ n.toJDN = (Date.mk 29 2 2024).toJDN + 1 :=
  ⟨⟨by decide, by decide⟩,
    C6_toJDN_successor ⟨29, 2, 2024⟩ (by decide) (by decide) (by decide)⟩

/-- Claim C7: for every valid date with `year ≤ 9999`, `toJDN` as coded (truncating division,
32-bit `int` intermediates, 64-bit sum) equals the formula of the specification evaluated with
floor division over the unbounded integers, and no intermediate leaves the range of its type:
the checked computation succeeds with the same value. -/
theorem C7_toJDN_refines_spec (d : Date) (_hr : d.inRange) (v : d.isValid = some true)
    (hy : d.year ≤ 9999) :
    d.toJDN = specJDN d.day d.month d.year
      ∧ d.toJDNChecked = some (specJDN d.day d.month d.year) := by
  have b := valid_bounds v
  exact ⟨toJDN_eq_spec ⟨b.2.2.2.1, b.2.2.2.2⟩ ⟨b.2.1, b.2.2.1⟩ ⟨by omega, by omega⟩,
    toJDNChecked_eq_spec ⟨b.2.2.2.1, b.2.2.2.2⟩ ⟨b.2.1, b.2.2.1⟩ ⟨by omega, by omega⟩⟩

theorem C7_toJDN_refines_spec_witness :
    ((Date.mk 31 12 9999).isValid = some true ∧ (Date.mk 31 12 9999).year ≤ 9999)
      ∧ (Date.mk 31 12 9999).toJDN = specJDN 31 12 9999
      ∧ (Date.mk 31 12 9999).toJDNChecked = some (specJDN 31 12 9999) :=
  ⟨⟨by decide, by decide⟩,
    C7_toJDN_refines_spec ⟨31, 12, 9999⟩ (by decide) (by decide) (by decide)⟩

/-- Claim C8: for every integer triple, `isValid` is false if and only if `year < 1`, or
`month < 1`, or `month > 12`, or `day < 1`, or `day > daysInMonth(month, year)` (and it is
true otherwise); in particular it is false for day 31 of month 4, for month 0 and month 13,
for day 0 and for year 0. -/
theorem C8_isValid_iff :
    (∀ day month year : Int,
        ((Date.mk day month year).isValid = some false ↔
          (year < 1 ∨ month < 1 ∨ month > 12 ∨ day < 1
            ∨ ∃ n, daysInMonth month year = some n ∧ day > n))
        ∧ ((Date.mk day month year).isValid = some true ↔
          ¬ (year < 1 ∨ month < 1 ∨ month > 12 ∨ day < 1
            ∨ ∃ n, daysInMonth month year = some n ∧ day > n)))
      ∧ (∀ y : Int, (Date.mk 31 4 y).isValid = some false)
      ∧ (∀ d y : Int, (Date.mk d 0 y).isValid = some false)
      ∧ (∀ d y : Int, (Date.mk d 13 y).isValid = some false)
      ∧ (∀ m y : Int, (Date.mk 0 m y).isValid = some false)
      ∧ (∀ d m : Int, (Date.mk d m 0).isValid = some false) := by
  refine ⟨fun day month year => ⟨isValid_false_iff _, ?_⟩, ?_, ?_, ?_, ?_, ?_⟩
  · rw [← isValid_false_iff (Date.mk day month year)]
    rcases isValid_total (Date.mk day month year) with h | h <;> simp [h]
  · intro y
    rw [isValid_false_iff]
    by_cases hy : y < 1
    · exact Or.inl hy
    · exact Or.inr (Or.inr (Or.inr (Or.inr
        ⟨30, by simpa [monthLength] using daysInMonth_eq (m := 4) y (by decide) (by decide),
          by norm_num⟩)))
  · intro d y
    rw [isValid_false_iff]
    exact Or.inr (Or.inl (by norm_num))
  · intro d y
    rw [isValid_false_iff]
    exact Or.inr (Or.inr (Or.inl (by norm_num)))
  · intro m y
    rw [isValid_false_iff]
    exact Or.inr (Or.inr (Or.inr (Or.inl (by norm_num))))
  · intro d m
    rw [isValid_false_iff]
    exact Or.inl (by norm_num)

/-- Claim C9: `daysInMonth(2, y)` is 29 if `isLeapYear(y)` and 28 otherwise; for every month in
1..12 other than 2 the result is the fixed Gregorian length (30 for months 4, 6, 9, 11 and 31
for months 1, 3, 5, 7, 8, 10, 12), independent of the year. -/
theorem C9_daysInMonth_table (m y : Int) (h1 : 1 ≤ m) (h12 : m ≤ 12) :
    daysInMonth m y =
        some (if m = 2 then (if isLeapYear y = true then 29 else 28)
              else if m = 4 ∨ m = 6 ∨ m = 9 ∨ m = 11 then 30 else 31)
      ∧ (m ≠ 2 → ∀ y2 : Int, daysInMonth m y2 = daysInMonth m y) := by
  constructor
  · exact daysInMonth_eq y h1 h12
  · intro h2 y2
    rw [daysInMonth_eq y h1 h12, daysInMonth_eq y2 h1 h12]
    simp [monthLength, h2]

theorem C9_daysInMonth_table_witness :
    (daysInMonth 2 2024 = some 29 ∧ daysInMonth 2 2023 = some 28 ∧ daysInMonth 4 2023 = some 30)
      ∧ (∀ y2 : Int, daysInMonth 12 y2 = daysInMonth 12 2023) :=
  ⟨⟨(C9_daysInMonth_table 2 2024 (by decide) (by decide)).1,
      (C9_daysInMonth_table 2 2023 (by decide) (by decide)).1,
      (C9_daysInMonth_table 4 2023 (by decide) (by decide)).1⟩,
    (C9_daysInMonth_table 12 2023 (by decide) (by decide)).2 (by decide)⟩

/-- Claim C10: for every integer year, zero and negative values included, `isLeapYear` is true
if and only if the year is divisible by 4 and not by 100, or divisible by 400; in particular
2000 and 2024 are leap years, 1900 and 2023 are not. -/
theorem C10_isLeapYear_rule :
    (∀ y : Int, isLeapYear y = true ↔ ((4 ∣ y ∧ ¬ 100 ∣ y) ∨ 400 ∣ y))
      ∧ isLeapYear 2000 = true ∧ isLeapYear 1900 = false
      ∧ isLeapYear 2024 = true ∧ isLeapYear 2023 = false :=
  ⟨isLeapYear_iff, by decide, by decide, by decide, by decide⟩

/-- Claim C11: `operator<=` is exactly the lexicographic order on `(year, month, day)`; it is
reflexive, antisymmetric, transitive and total, and `!(dob <= today)` holds exactly when `dob`
is strictly after `today`. -/
theorem C11_le_is_lexicographic :
    (∀ a b : Date, a.le b = true ↔
        (a.year < b.year ∨ (a.year = b.year ∧ (a.month < b.month
          ∨ (a.month = b.month ∧ a.day ≤ b.day)))))
      ∧ (∀ a : Date, a.le a = true)
      ∧ (∀ a b : Date, a.le b = true → b.le a = true → a = b)
      ∧ (∀ a b c : Date, a.le b = true → b.le c = true → a.le c = true)
      ∧ (∀ a b : Date, a.le b = true ∨ b.le a = true)
      ∧ (∀ dob today : Date, dob.le today = false ↔
          (today.year < dob.year ∨ (today.year = dob.year ∧ (today.month < dob.month
            ∨ (today.month = dob.month ∧ today.day < dob.day))))) := by
  refine ⟨le_iff, ?_, ?_, ?_, ?_, le_false_iff⟩
  · intro a
    rw [le_iff]
    omega
  · intro a b hab hba
    rw [le_iff] at hab hba
    exact date_ext (by omega) (by omega) (by omega)
  · intro a b c hab hbc
    rw [le_iff] at hab hbc ⊢
    omega
  · intro a b
    rw [le_iff, le_iff]
    omega

theorem C11_le_is_lexicographic_witness :
    ((Date.mk 31 12 1999).le (Date.mk 1 1 2000) = true
        ∧ (Date.mk 1 1 2000).le (Date.mk 15 1 2000) = true)
      ∧ (Date.mk 31 12 1999).le (Date.mk 15 1 2000) = true :=
  ⟨⟨by decide, by decide⟩,
    C11_le_is_lexicographic.2.2.2.1 ⟨31, 12, 1999⟩ ⟨1, 1, 2000⟩ ⟨15, 1, 2000⟩
      (by decide) (by decide)⟩

/-- Claim C12: `classify` returns the Baby label iff `years ≤ 2`, the Child label iff
`3 ≤ years ≤ 12`, the Teen label iff `13 ≤ years ≤ 19`, the Adult label iff
`20 ≤ years ≤ 59` and the Senior label iff `years ≥ 60`; in particular 0 and 2 are Baby, 3 and
12 Child, 13 and 19 Teen, 20 and 59 Adult, 60 Senior. -/
theorem C12_classify_buckets :
    (∀ years : Int,
        (classify years = babyLabel ↔ years ≤ 2)
        ∧ (classify years = childLabel ↔ 3 ≤ years ∧ years ≤ 12)
        ∧ (classify years = teenLabel ↔ 13 ≤ years ∧ years ≤ 19)
        ∧ (classify years = adultLabel ↔ 20 ≤ years ∧ years ≤ 59)
        ∧ (classify years = seniorLabel ↔ 60 ≤ years))
      ∧ classify 0 = babyLabel ∧ classify 2 = babyLabel
      ∧ classify 3 = childLabel ∧ classify 12 = childLabel
      ∧ classify 13 = teenLabel ∧ classify 19 = teenLabel
      ∧ classify 20 = adultLabel ∧ classify 59 = adultLabel
      ∧ classify 60 = seniorLabel := by
  refine ⟨?_, by decide, by decide, by decide, by decide, by decide, by decide, by decide,
    by decide, by decide⟩
  intro y
  rcases classify_cases y with ⟨h, hc⟩ | ⟨h, h2, hc⟩ | ⟨h, h2, hc⟩ | ⟨h, h2, hc⟩ | ⟨h, hc⟩
  all_goals
    rw [hc]
    refine ⟨?_, ?_, ?_, ?_, ?_⟩ <;> constructor <;> intro h0 <;>
      (first | omega | rfl | exact absurd h0 (by decide))

/-- Claim C13 as stated fails: `dob` = 02-01-2000 and `today` = (1, 2000000000, 2000) are
triples of `int`s; the day difference is negative, the borrow step reads `dm` at index
1999999998, far outside the table, and `compute` has no result at all. -/
theorem C13_compute_faults_for_month_out_of_range :
    (Date.mk 2 1 2000).inRange ∧ (Date.mk 1 2000000000 2000).inRange
      ∧ sub32 (Date.mk 1 2000000000 2000).day (Date.mk 2 1 2000).day = -1
      ∧ sub32 (sub32 (Date.mk 1 2000000000 2000).month 1) 1 = 1999999998
      ∧ daysInMonth (sub32 (Date.mk 1 2000000000 2000).month 1) 2000 = none
      ∧ compute ⟨2, 1, 2000⟩ ⟨1, 2000000000, 2000⟩ = none := by
  decide

/-- Claim C13, amended: for every pair of dates, valid or not and in either order, whenever
`compute` returns, its `totalDays` is `max(0, toJDN(today) - toJDN(dob))` and is not negative;
and `compute` does return whenever `today.month` is in 1..13, that is whenever the month the
borrow step looks up (`today.month - 1`, or 12 for January) is in 1..12. -/
theorem C13_totalDays_clamped (dob today : Date) (hd : dob.inRange) (ht : today.inRange) :
    (∀ r, compute dob today = some r →
        r.totalDays = max 0 (today.toJDN - dob.toJDN) ∧ 0 ≤ r.totalDays)
      ∧ (1 ≤ today.month ∧ today.month ≤ 13 →
          ∃ r, compute dob today = some r
            ∧ r.totalDays = max 0 (today.toJDN - dob.toJDN) ∧ 0 ≤ r.totalDays) := by
  have ht2 := totalDaysOf_eq dob today hd ht
  constructor
  · intro r hr
    rw [compute_totalDays hr]
    exact ht2
  · intro hm
    obtain ⟨r, hr, hrt⟩ := compute_isSome dob today hm
    exact ⟨r, hr, by rw [hrt]; exact ht2.1, by rw [hrt]; exact ht2.2⟩

theorem C13_totalDays_clamped_witness :
    (1 ≤ (Date.mk 30 2 (-5)).month ∧ (Date.mk 30 2 (-5)).month ≤ 13)
      ∧ ∃ r, compute ⟨31, 12, 2030⟩ ⟨30, 2, -5⟩ = some r
        ∧ r.totalDays = max 0 ((Date.mk 30 2 (-5)).toJDN - (Date.mk 31 12 2030).toJDN)
        ∧ 0 ≤ r.totalDays :=
  ⟨by decide,
    (C13_totalDays_clamped ⟨31, 12, 2030⟩ ⟨30, 2, -5⟩ (by decide) (by decide)).2 (by decide)⟩

/-- Claim C14 as stated fails: 01-01-2000 and 01-03-2147478848 are valid dates with
`dob <= today`, but `year + 4800` does not fit a 32-bit `int` for `today`, its `toJDN` is
negative, the difference is negative, and the clamp fires: `totalDays` is 0. -/
theorem C14_clamp_fires_for_huge_year :
    (Date.mk 1 1 2000).isValid = some true ∧ (Date.mk 1 3 2147478848).isValid = some true
      ∧ (Date.mk 1 3 2147478848).inRange
      ∧ (Date.mk 1 1 2000).le (Date.mk 1 3 2147478848) = true
      ∧ (Date.mk 1 3 2147478848).toJDN - (Date.mk 1 1 2000).toJDN = -784354779894
      ∧ compute ⟨1, 1, 2000⟩ ⟨1, 3, 2147478848⟩ = some ⟨2147476848, 2, 0, 0⟩ := by
  decide

/-- Claim C14, amended: for every pair of valid dates with `dob <= today` and
`today.year ≤ 2147478847` (so that `year + 4800` fits a 32-bit `int`),
`toJDN(today) - toJDN(dob) ≥ 0`, the clamp of `compute` does not fire and `totalDays` is that
difference exactly: `toJDN` is monotone for `operator<=` on such dates. -/
theorem C14_totalDays_exact (dob today : Date) (hd : dob.inRange) (ht : today.inRange)
    (vd : dob.isValid = some true) (vt : today.isValid = some true)
    (hle : dob.le today = true) (hy : today.year ≤ 2147478847) :
    0 ≤ today.toJDN - dob.toJDN
      ∧ ¬ (sub64 today.toJDN dob.toJDN < 0)
      ∧ ∃ r, compute dob today = some r ∧ r.totalDays = today.toJDN - dob.toJDN := by
  have hmono : dob.toJDN ≤ today.toJDN := by
    rcases le_cases hle with e | hb
    · rw [e]
    · exact le_of_lt (toJDN_strict_mono vd vt hy hb)
  have bd := toJDN_bound dob hd
  have bt := toJDN_bound today ht
  have e : sub64 today.toJDN dob.toJDN = today.toJDN - dob.toJDN :=
    wrap64_of_inInt64 (by unfold inInt64; omega)
  have ht2 := (totalDaysOf_eq dob today hd ht).1
  rw [max_eq_right (by omega)] at ht2
  refine ⟨by omega, by rw [e]; omega, computeExact dob today, compute_eq hd ht vd vt, ?_⟩
  rw [← ht2]
  unfold computeExact
  simp only
  split_ifs <;> rfl

theorem C14_totalDays_exact_witness :
    ((Date.mk 29 2 2000).le (Date.mk 1 3 2024) = true ∧ (Date.mk 1 3 2024).year ≤ 2147478847)
      ∧ 0 ≤ (Date.mk 1 3 2024).toJDN - (Date.mk 29 2 2000).toJDN
      ∧ ¬ (sub64 (Date.mk 1 3 2024).toJDN (Date.mk 29 2 2000).toJDN < 0)
      ∧ ∃ r, compute ⟨29, 2, 2000⟩ ⟨1, 3, 2024⟩ = some r
        ∧ r.totalDays = (Date.mk 1 3 2024).toJDN - (Date.mk 29 2 2000).toJDN :=
  ⟨⟨by decide, by decide⟩,
    C14_totalDays_exact ⟨29, 2, 2000⟩ ⟨1, 3, 2024⟩ (by decide) (by decide) (by decide)
      (by decide) (by decide) (by decide)⟩

/-- Claim C15: for valid dates with `dob <= today`, the value of `y` after the day borrow and
the month borrow is not negative, so the `y < 0` branch is not taken and the returned years,
months and days are the results of the two borrow steps, unclamped. -/
theorem C15_clamp_unreachable (dob today : Date) (hd : dob.inRange) (ht : today.inRange)
    (vd : dob.isValid = some true) (vt : today.isValid = some true)
    (hle : dob.le today = true) :
    ∃ m1 d1, dayBorrow today (sub32 today.month dob.month) (sub32 today.day dob.day)
        = some (m1, d1)
      ∧ 0 ≤ (monthBorrow (sub32 today.year dob.year) m1).1
      ∧ compute dob today =
          some ⟨(monthBorrow (sub32 today.year dob.year) m1).1,
            (monthBorrow (sub32 today.year dob.year) m1).2, d1, totalDaysOf dob today⟩ := by
  have bd := valid_bounds vd
  have bt := valid_bounds vt
  obtain ⟨e1, e2, e3⟩ := naive_diffs hd ht vd vt
  have hdr := hd
  have htr := ht
  unfold Date.inRange inInt32 at hdr htr
  rw [le_iff] at hle
  have hdb := dayBorrow_eq vt (today.month - dob.month) (today.day - dob.day)
    (by omega) (by omega)
  rw [← e2, ← e3] at hdb
  have key : 0 ≤ (monthBorrow (sub32 today.year dob.year)
      (if sub32 today.day dob.day < 0
        then (sub32 today.month dob.month - 1, sub32 today.day dob.day + prevMonthLength today)
        else (sub32 today.month dob.month, sub32 today.day dob.day)).1).1 := by
    rw [e1, e2, e3, monthBorrow_eq _ _ (by omega) (by split_ifs <;> simp only <;> omega)]
    split_ifs <;> simp only <;> omega
  generalize (if sub32 today.day dob.day < 0
      then (sub32 today.month dob.month - 1, sub32 today.day dob.day + prevMonthLength today)
      else (sub32 today.month dob.month, sub32 today.day dob.day)) = p at hdb key
  obtain ⟨m1, d1⟩ := p
  have hc := compute_of_dayBorrow dob today m1 d1 hdb
  rw [if_neg (not_lt.mpr key)] at hc
  exact ⟨m1, d1, hdb, key, hc⟩

theorem C15_clamp_unreachable_witness :
    ((Date.mk 31 1 2000).isValid = some true ∧ (Date.mk 1 1 2001).isValid = some true
        ∧ (Date.mk 31 1 2000).le (Date.mk 1 1 2001) = true)
      ∧ ∃ m1 d1, dayBorrow ⟨1, 1, 2001⟩ (sub32 (Date.mk 1 1 2001).month (Date.mk 31 1 2000).month)
            (sub32 (Date.mk 1 1 2001).day (Date.mk 31 1 2000).day) = some (m1, d1)
        ∧ 0 ≤ (monthBorrow (sub32 (Date.mk 1 1 2001).year (Date.mk 31 1 2000).year) m1).1
        ∧ compute ⟨31, 1, 2000⟩ ⟨1, 1, 2001⟩ =
            some ⟨(monthBorrow (sub32 (Date.mk 1 1 2001).year (Date.mk 31 1 2000).year) m1).1,
              (monthBorrow (sub32 (Date.mk 1 1 2001).year (Date.mk 31 1 2000).year) m1).2, d1,
              totalDaysOf ⟨31, 1, 2000⟩ ⟨1, 1, 2001⟩⟩ :=
  ⟨⟨by decide, by decide, by decide⟩,
    C15_clamp_unreachable ⟨31, 1, 2000⟩ ⟨1, 1, 2001⟩ (by decide) (by decide) (by decide)
      (by decide) (by decide)⟩

/-- Claim C16 as stated fails: on `dob` = 01-03-2000 and `today` = 15-02-2024 the naive day
difference is `15 - 1 = 14`, which is not negative, so the day-borrow step is not triggered:
it returns `m` and `d` unchanged. -/
theorem C16_day_borrow_not_triggered :
    sub32 (Date.mk 15 2 2024).day (Date.mk 1 3 2000).day = 14
      ∧ ¬ (sub32 (Date.mk 15 2 2024).day (Date.mk 1 3 2000).day < 0)
      ∧ sub32 (Date.mk 15 2 2024).month (Date.mk 1 3 2000).month = -1
      ∧ dayBorrow ⟨15, 2, 2024⟩ (-1) 14 = some (-1, 14) := by
  decide

/-- Claim C16, amended: on `dob` = 01-03-2000 and `today` = 15-02-2024 only the month-borrow
step is triggered: the naive differences are `y = 24`, `m = -1`, `d = 14`; the day borrow
leaves `m` and `d` as they are, the month borrow adds 12 to `m` and decrements `y`, the clamp
is not taken, and the result is 23 years, 11 months, 14 days. -/
theorem C16_month_borrow_only :
    sub32 (Date.mk 15 2 2024).year (Date.mk 1 3 2000).year = 24
      ∧ sub32 (Date.mk 15 2 2024).month (Date.mk 1 3 2000).month = -1
      ∧ sub32 (Date.mk 15 2 2024).day (Date.mk 1 3 2000).day = 14
      ∧ dayBorrow ⟨15, 2, 2024⟩ (-1) 14 = some (-1, 14)
      ∧ monthBorrow 24 (-1) = (23, 11)
      ∧ compute ⟨1, 3, 2000⟩ ⟨15, 2, 2024⟩ = some ⟨23, 11, 14, 8751⟩ := by
  decide

/-- Claim C17: every read of a constant table in the core is in bounds.  For every integer
triple `isValid` returns (it calls `daysInMonth` only with a month in 1..12, where the read
succeeds); for every valid `today` and any `dob` the borrow step looks up a month in 1..12 and
`compute` returns; for every date with month in 1..12 `dayOfWeek` reads its offset table at an
index in 0..11 and returns a value in 0..6, so `dayName` reads the 7 names in bounds. -/
theorem C17_table_reads_in_bounds :
    (∀ d : Date, (d.isValid = some false ∨ d.isValid = some true)
        ∧ (¬ (d.year < 1 ∨ d.month < 1 ∨ d.month > 12 ∨ d.day < 1) →
            (1 ≤ d.month ∧ d.month ≤ 12) ∧ ∃ n, daysInMonth d.month d.year = some n))
      ∧ (∀ today : Date, today.isValid = some true →
          (1 ≤ (if sub32 today.month 1 = 0 then 12 else sub32 today.month 1)
            ∧ (if sub32 today.month 1 = 0 then 12 else sub32 today.month 1) ≤ 12)
          ∧ ∀ dob : Date, ∃ r, compute dob today = some r)
      ∧ (∀ d : Date, 1 ≤ d.month ∧ d.month ≤ 12 →
          (0 ≤ sub32 d.month 1 ∧ sub32 d.month 1 ≤ 11)
          ∧ (∃ w, d.dayOfWeek = some w ∧ 0 ≤ w ∧ w ≤ 6)
          ∧ ∃ s, d.dayName = some s) := by
  refine ⟨?_, ?_, ?_⟩
  · intro d
    refine ⟨isValid_total d, fun h => ⟨by omega, ?_⟩⟩
    exact ⟨_, daysInMonth_eq d.year (by omega) (by omega)⟩
  · intro today vt
    have bt := valid_bounds vt
    constructor
    · have hpm : sub32 today.month 1 = today.month - 1 := by
        unfold sub32 wrap32
        omega
      rw [hpm]
      split_ifs <;> omega
    · intro dob
      obtain ⟨r, hr, _⟩ := compute_isSome dob today ⟨by omega, by omega⟩
      exact ⟨r, hr⟩
  · intro d hm
    exact ⟨(sakamoto_lookup hm.1 hm.2).1, dayOfWeek_range d hm, dayName_isSome d hm⟩

theorem C17_table_reads_in_bounds_witness :
    (Date.mk 29 2 2024).isValid = some true
      ∧ ∃ r, compute ⟨31, 12, 2030⟩ ⟨29, 2, 2024⟩ = some r :=
  ⟨by decide,
    (C17_table_reads_in_bounds.2.1 ⟨29, 2, 2024⟩ (by decide)).2 ⟨31, 12, 2030⟩⟩

/-- Claim C18 as stated fails: 01-03-2147478848 and 01-01-2000 are valid dates, `dob` is
strictly after `today`, years, months and days are 0, but `toJDN(dob)` has overflowed to a
negative number and `totalDays` is 784354779894, not 0. -/
theorem C18_totalDays_not_zero_for_huge_year :
    (Date.mk 1 3 2147478848).isValid = some true ∧ (Date.mk 1 1 2000).isValid = some true
      ∧ (Date.mk 1 3 2147478848).inRange
      ∧ (Date.mk 1 3 2147478848).le (Date.mk 1 1 2000) = false
      ∧ compute ⟨1, 3, 2147478848⟩ ⟨1, 1, 2000⟩ = some ⟨0, 0, 0, 784354779894⟩ := by
  decide

/-- Claim C18, amended: for every pair of valid dates with `dob` strictly after `today` and
`dob.year ≤ 2147478847` (so that `year + 4800` fits a 32-bit `int`), `compute` returns
`years = 0`, `months = 0`, `days = 0` and `totalDays = 0`, whichever of the year, the month
or the day makes `dob` later. -/
theorem C18_future_dob_gives_zero (dob today : Date) (hd : dob.inRange) (ht : today.inRange)
    (vd : dob.isValid = some true) (vt : today.isValid = some true)
    (hlt : dob.le today = false) (hy : dob.year ≤ 2147478847) :
    compute dob today = some ⟨0, 0, 0, 0⟩ := by
  have hb := before_of_le_false hlt
  have hj := toJDN_strict_mono vt vd hy hb
  have ht2 := (totalDaysOf_eq dob today hd ht).1
  rw [max_eq_left (by omega)] at ht2
  rw [compute_eq hd ht vd vt, computeExact_future vd vt hb, ht2]

theorem C18_future_dob_gives_zero_witness :
    ((Date.mk 2 1 2024).le (Date.mk 1 1 2024) = false ∧ (Date.mk 2 1 2024).year ≤ 2147478847)
      ∧ compute ⟨2, 1, 2024⟩ ⟨1, 1, 2024⟩ = some ⟨0, 0, 0, 0⟩ :=
  ⟨⟨by decide, by decide⟩,
    C18_future_dob_gives_zero ⟨2, 1, 2024⟩ ⟨1, 1, 2024⟩ (by decide) (by decide) (by decide)
      (by decide) (by decide) (by decide)⟩

/-- Claim C19 as stated fails: 15-06-1990 and 31-12-2147478848 are valid dates with
`dob <= today` and they are not the same date, yet `totalDays` is 0 (the difference of the
Julian Day Numbers has overflowed and is clamped) while the years are not 0. -/
theorem C19_totalDays_zero_for_distinct_dates :
    (Date.mk 15 6 1990).isValid = some true ∧ (Date.mk 31 12 2147478848).isValid = some true
      ∧ (Date.mk 31 12 2147478848).inRange
      ∧ (Date.mk 15 6 1990).le (Date.mk 31 12 2147478848) = true
      ∧ Date.mk 15 6 1990 ≠ Date.mk 31 12 2147478848
      ∧ compute ⟨15, 6, 1990⟩ ⟨31, 12, 2147478848⟩ = some ⟨2147476858, 6, 16, 0⟩ := by
  decide

/-- Claim C19, amended: for every pair of valid dates with `dob <= today` and
`today.year ≤ 2147478847` (so that `year + 4800` fits a 32-bit `int`), the following are
equivalent for the result of `compute`: `dob` and `today` are the same date; years, months
and days are all 0; `totalDays` is 0. -/
theorem C19_zero_iff_same_date (dob today : Date) (hd : dob.inRange) (ht : today.inRange)
    (vd : dob.isValid = some true) (vt : today.isValid = some true)
    (hle : dob.le today = true) (hy : today.year ≤ 2147478847) :
    ∃ r, compute dob today = some r
      ∧ (dob = today ↔ (r.years = 0 ∧ r.months = 0 ∧ r.days = 0))
      ∧ (dob = today ↔ r.totalDays = 0)
      ∧ ((r.years = 0 ∧ r.months = 0 ∧ r.days = 0) ↔ r.totalDays = 0) := by
  have hA : dob = today → computeExact dob today = ⟨0, 0, 0, 0⟩ := by
    intro e
    rw [e]
    exact computeExact_self today ht
  have hB : (computeExact dob today).years = 0 ∧ (computeExact dob today).months = 0
      ∧ (computeExact dob today).days = 0 → dob = today :=
    computeExact_zero vd vt hle
  have hT : (computeExact dob today).totalDays = totalDaysOf dob today := by
    unfold computeExact
    simp only
    split_ifs <;> rfl
  have hC : (computeExact dob today).totalDays = 0 → dob = today := by
    intro h0
    rcases le_cases hle with e | hb
    · exact e
    · have hj := toJDN_strict_mono vd vt hy hb
      have ht2 := (totalDaysOf_eq dob today hd ht).1
      rw [max_eq_right (by omega)] at ht2
      rw [hT, ht2] at h0
      omega
  refine ⟨computeExact dob today, compute_eq hd ht vd vt, ⟨?_, hB⟩, ⟨?_, hC⟩, ⟨?_, ?_⟩⟩
  · intro e
    rw [hA e]
    exact ⟨rfl, rfl, rfl⟩
  · intro e
    rw [hA e]
  · intro h0
    rw [hA (hB h0)]
  · intro h0
    rw [hA (hC h0)]
    exact ⟨rfl, rfl, rfl⟩

theorem C19_zero_iff_same_date_witness :
    ((Date.mk 29 2 2024).le (Date.mk 29 2 2024) = true ∧ (Date.mk 29 2 2024).year ≤ 2147478847)
      ∧ ∃ r, compute ⟨29, 2, 2024⟩ ⟨29, 2, 2024⟩ = some r
        ∧ (Date.mk 29 2 2024 = Date.mk 29 2 2024 ↔ (r.years = 0 ∧ r.months = 0 ∧ r.days = 0))
        ∧ (Date.mk 29 2 2024 = Date.mk 29 2 2024 ↔ r.totalDays = 0)
        ∧ ((r.years = 0 ∧ r.months = 0 ∧ r.days = 0) ↔ r.totalDays = 0) :=
  ⟨⟨by decide, by decide⟩,
    C19_zero_iff_same_date ⟨29, 2, 2024⟩ ⟨29, 2, 2024⟩ (by decide) (by decide) (by decide)
      (by decide) (by decide) (by decide)⟩

/-- Claim C20: completed years never decrease as time advances: for valid dates with
`dob <= t1` and `t1 <= t2`, the years of `compute dob t1` are at most the years of
`compute dob t2`, and the life stage chosen by `classify` never moves to an earlier one. -/
theorem C20_years_monotone (dob t1 t2 : Date) (hd : dob.inRange) (h1 : t1.inRange)
    (h2 : t2.inRange) (vd : dob.isValid = some true) (v1 : t1.isValid = some true)
    (v2 : t2.isValid = some true) (hle1 : dob.le t1 = true) (hle2 : t1.le t2 = true) :
    ∃ r1 r2, compute dob t1 = some r1 ∧ compute dob t2 = some r2
      ∧ r1.years ≤ r2.years
      ∧ stageIndex (classify r1.years) ≤ stageIndex (classify r2.years) := by
  have hle3 : dob.le t2 = true := by
    rw [le_iff] at hle1 hle2 ⊢
    omega
  have hy : (computeExact dob t1).years ≤ (computeExact dob t2).years := by
    rw [computeExact_years vd v1 hle1, computeExact_years vd v2 hle3]
    rw [le_iff] at hle2
    split_ifs <;> omega
  exact ⟨_, _, compute_eq hd h1 vd v1, compute_eq hd h2 vd v2, hy,
    stageIndex_classify_mono hy⟩

theorem C20_years_monotone_witness :
    ((Date.mk 29 2 2004).le (Date.mk 28 2 2017) = true
        ∧ (Date.mk 28 2 2017).le (Date.mk 1 3 2017) = true)
      ∧ ∃ r1 r2, compute ⟨29, 2, 2004⟩ ⟨28, 2, 2017⟩ = some r1
        ∧ compute ⟨29, 2, 2004⟩ ⟨1, 3, 2017⟩ = some r2
        ∧ r1.years ≤ r2.years
        ∧ stageIndex (classify r1.years) ≤ stageIndex (classify r2.years) :=
  ⟨⟨by decide, by decide⟩,
    C20_years_monotone ⟨29, 2, 2004⟩ ⟨28, 2, 2017⟩ ⟨1, 3, 2017⟩ (by decide) (by decide)
      (by decide) (by decide) (by decide) (by decide) (by decide) (by decide)⟩

end AgeCalc
